import Mathlib

/-!
# finch: wire protocol, connection handler and client command path

A shallow embedding of `src/client.cpp` and `src/server.cpp`.

Conventions of the embedding

* A byte (`uint8_t`, one `char` of a `std::string`) is a `Fin 256`; byte strings
  (`std::vector<uint8_t>`, `std::string`) are lists of bytes.
* `uint32_t` / `uint64_t` values are natural numbers, reduced `% 2^32` / `% 2^64`
  wherever the source narrows or can wrap.  `size_t` is 64 bits wide, so the
  `offset + length` sums of the server (at most `17 + 2^32 + 4 + 2^32`) never wrap.
* The host is little-endian (x86-64, AArch64): `htonl` / `ntohl` reverse the four
  octets of a word, and `memcpy` / `reinterpret_cast<uint8_t*>` see the least
  significant octet of an integer first.
* A read outside a `std::vector` is undefined behaviour; the embedding makes it
  explicit as the result `none`.
-/

namespace Finch

/-! ## Bytes and integers in memory -/

/-- One octet. -/
abbrev Byte := Fin 256

/-- A byte string. -/
abbrev Bytes := List Byte

/-- Narrowing conversion to `uint8_t`. -/
def byte (n : Nat) : Byte := ⟨n % 256, Nat.mod_lt _ (by decide)⟩

/-- The bytes of a string literal of the source. -/
def str (s : String) : Bytes := s.toList.map (fun c => byte c.toNat)

/-- The library call `htonl` on a little-endian host: the four octets of a 32-bit word
in reverse order. -/
def htonl (v : Nat) : Nat :=
  (v % 256) * 2 ^ 24 + (v / 2 ^ 8 % 256) * 2 ^ 16 + (v / 2 ^ 16 % 256) * 2 ^ 8 + v / 2 ^ 24 % 256

/-- The library call `ntohl` on a little-endian host (the same octet reversal). -/
def ntohl (v : Nat) : Nat := htonl v

/-- Object representation of a `uint32_t` on a little-endian host: what
`reinterpret_cast<uint8_t*>(&x) .. + sizeof(uint32_t)` ranges over. -/
def bytes_of_uint32 (v : Nat) : Bytes :=
  [byte v, byte (v / 2 ^ 8), byte (v / 2 ^ 16), byte (v / 2 ^ 24)]

/-- Object representation of a `uint64_t` on a little-endian host. -/
def bytes_of_uint64 (v : Nat) : Bytes :=
  [byte v, byte (v / 2 ^ 8), byte (v / 2 ^ 16), byte (v / 2 ^ 24),
   byte (v / 2 ^ 32), byte (v / 2 ^ 40), byte (v / 2 ^ 48), byte (v / 2 ^ 56)]

/-- The integer whose little-endian object representation is the given bytes. -/
def uint_of_bytes : Bytes → Nat
  | [] => 0
  | b :: bs => b.val + 256 * uint_of_bytes bs

/-- The call `std::memcpy(&x, &v[offset], n)` followed by reading `x`: `none` when
the `n` source bytes do not all lie inside the vector `v`. -/
def memcpy_uint (n : Nat) (v : Bytes) (offset : Nat) : Option Nat :=
  if offset + n ≤ v.length then some (uint_of_bytes ((v.drop offset).take n)) else none

/-! ## Client: request serialisation (`src/client.cpp`) -/

/-- Operation tag `OP_GET`. -/
def OP_GET : Byte := 1

/-- Operation tag `OP_PUT`. -/
def OP_PUT : Byte := 2

/-- Operation tag `OP_DEL`. -/
def OP_DEL : Byte := 3

/-- The member function `FinchClient::hton_uint32`. -/
def hton_uint32 (value : Nat) : Nat := htonl value

/-- The member function `FinchClient::hton_uint64`: both halves are narrowed to `uint32_t` and passed
through `htonl`; the converted low half becomes the upper word of the result. -/
def hton_uint64 (value : Nat) : Nat :=
  let high_part := htonl ((value >>> 32) % 2 ^ 32)
  let low_part := htonl ((value &&& 0xFFFFFFFF) % 2 ^ 32)
  ((low_part <<< 32) ||| high_part) % 2 ^ 64

/-- The serialisation part of `FinchClient::send_command` (from "Serialize the
message" to "Append Value"): the vector `message` handed to `send`.  `key_hash` is
the value of `hasher(key)`. -/
def build_message (op_type : Byte) (key_hash : Nat) (key value : Bytes) : Bytes :=
  let operation_type := op_type
  let key_hash_net := hton_uint64 key_hash
  let key_length := key.length % 2 ^ 32
  let key_length_net := hton_uint32 key_length
  let total_size := (4 + 1 + 8 + 4 + key_length) % 2 ^ 32
  let total_size :=
    if operation_type = OP_PUT then (total_size + (4 + value.length)) % 2 ^ 32 else total_size
  let total_size_net := hton_uint32 total_size
  let message : Bytes := []
  let message := message ++ bytes_of_uint32 total_size_net
  let message := message ++ [operation_type]
  let message := message ++ bytes_of_uint64 key_hash_net
  let message := message ++ bytes_of_uint32 key_length_net
  let message := message ++ key
  if operation_type = OP_PUT then
    let value_length := value.length % 2 ^ 32
    let value_length_net := hton_uint32 value_length
    let message := message ++ bytes_of_uint32 value_length_net
    message ++ value
  else
    message

/-! ## Server: partitioned store and connection handler (`src/server.cpp`) -/

/-- Number of partitions. -/
abbrev PARTITION_COUNT : Nat := 1024

/-- The map `Partition::data` (`std::unordered_map<std::string, std::string>`). -/
abbrev Partition := Bytes → Option Bytes

/-- The global `partitions` vector of `PARTITION_COUNT` maps. -/
abbrev Partitions := Fin PARTITION_COUNT → Partition

/-- The function `ntoh_uint32` of `server.cpp`. -/
def ntoh_uint32 (value : Nat) : Nat := ntohl value

/-- The function `ntoh_uint64` of `server.cpp`: the low word of the loaded value becomes the high half of the
result. -/
def ntoh_uint64 (value : Nat) : Nat :=
  let high_part := ntohl ((value &&& 0xFFFFFFFF) % 2 ^ 32)
  let low_part := ntohl ((value >>> 32) % 2 ^ 32)
  ((high_part <<< 32) ||| low_part) % 2 ^ 64

/-- The step "Read Total Size (N)" of `handle_client`: the first four bytes of the buffer are
copied into a `uint32_t` and passed through `ntoh_uint32`.  Only called with at
least four bytes in the buffer. -/
def read_total_size (buffer : Bytes) : Nat :=
  let total_size_net := uint_of_bytes (buffer.take 4)
  ntoh_uint32 total_size_net

/-- Head of one iteration of the inner loop of `handle_client` (the two `break`
tests, "Extract the complete message", "Remove the message from the buffer").
`none` is `break` (wait for more data); otherwise the vector `message` and the
buffer after `erase`. -/
def extract_message (buffer : Bytes) : Option (Bytes × Bytes) :=
  if buffer.length < 4 then none
  else
    let total_size := read_total_size buffer
    if buffer.length < total_size then none
    else some (buffer.take total_size, buffer.drop total_size)

/-- What the handler has decoded from one extracted message when it reaches the
store (or gives up on the message). -/
inductive Request where
  /-- A length check failed: "1ERROR: Invalid message" and `continue`. -/
  | invalid : Request
  /-- Operation type 1. -/
  | get (key_hash : Nat) (key : Bytes) : Request
  /-- Operation type 2, with its value. -/
  | put (key_hash : Nat) (key value : Bytes) : Request
  /-- Operation type 3. -/
  | del (key_hash : Nat) (key : Bytes) : Request
  /-- Any other operation type. -/
  | unknown (operation_type : Byte) (key_hash : Nat) (key : Bytes) : Request
  deriving DecidableEq, Repr

/-- The decoding steps of `handle_client` on an extracted `message` ("Process the
message" up to the store access, including the value fields read in the PUT
branch).  `none` means that a read (`message[offset]` or a `memcpy` from
`&message[offset]`) left the vector. -/
def parse_message (message : Bytes) : Option Request :=
  let offset := 0
  let offset := offset + 4
  match message.get? offset with
  | none => none
  | some operation_type =>
    let offset := offset + 1
    match memcpy_uint 8 message offset with
    | none => none
    | some key_hash_net =>
      let key_hash := ntoh_uint64 key_hash_net
      let offset := offset + 8
      match memcpy_uint 4 message offset with
      | none => none
      | some key_length_net =>
        let key_length := ntoh_uint32 key_length_net
        let offset := offset + 4
        if offset + key_length > message.length then some Request.invalid
        else
          let key := (message.drop offset).take key_length
          let offset := offset + key_length
          if operation_type = 1 then some (Request.get key_hash key)
          else if operation_type = 2 then
            if offset + 4 > message.length then some Request.invalid
            else
              match memcpy_uint 4 message offset with
              | none => none
              | some value_length_net =>
                let value_length := ntoh_uint32 value_length_net
                let offset := offset + 4
                if offset + value_length > message.length then some Request.invalid
                else
                  let value := (message.drop offset).take value_length
                  some (Request.put key_hash key value)
          else if operation_type = 3 then some (Request.del key_hash key)
          else some (Request.unknown operation_type key_hash key)

/-- The index `partition_id = hash % PARTITION_COUNT`. -/
def partition_id (key_hash : Nat) : Fin PARTITION_COUNT :=
  ⟨key_hash % PARTITION_COUNT, Nat.mod_lt _ (by decide)⟩

/-- The store access and the response of `handle_client` for a decoded message:
the bytes passed to `send` and the partitions afterwards. -/
def execute (partitions : Partitions) : Request → Bytes × Partitions
  | Request.invalid => (str "1ERROR: Invalid message", partitions)
  | Request.get key_hash key =>
    match partitions (partition_id key_hash) key with
    | some value => (str "0" ++ value, partitions)
    | none => (str "1NOT_FOUND", partitions)
  | Request.put key_hash key value =>
    (str "0OK",
      Function.update partitions (partition_id key_hash)
        (Function.update (partitions (partition_id key_hash)) key (some value)))
  | Request.del key_hash key =>
    let erased := (partitions (partition_id key_hash) key).isSome
    (if erased then str "0DELETED" else str "1NOT_FOUND",
      Function.update partitions (partition_id key_hash)
        (Function.update (partitions (partition_id key_hash)) key none))
  | Request.unknown _ _ _ => (str "1ERROR: Unknown command", partitions)

/-- How the inner loop of `handle_client` stopped. -/
inductive Stop where
  /-- One of the two `break`s: the buffer holds no complete message. -/
  | need_more_data : Stop
  /-- A read outside the extracted message. -/
  | fault : Stop
  /-- The iteration budget of the embedding ran out. -/
  | out_of_fuel : Stop
  deriving DecidableEq, Repr

/-- Result of running the inner loop: the responses passed to `send`, in order, the
partitions and the pending buffer afterwards, and how the loop stopped. -/
structure LoopResult where
  /-- Responses sent, oldest first. -/
  sent : List Bytes
  /-- The store afterwards. -/
  partitions : Partitions
  /-- The connection buffer afterwards. -/
  buffer : Bytes
  /-- Why the loop stopped. -/
  stop : Stop

/-- The inner `while (true)` of `handle_client` ("Process messages in the buffer"),
run for at most `fuel` iterations. -/
def process_buffer : Nat → Partitions → Bytes → LoopResult
  | 0, partitions, buffer => ⟨[], partitions, buffer, Stop.out_of_fuel⟩
  | fuel + 1, partitions, buffer =>
    match extract_message buffer with
    | none => ⟨[], partitions, buffer, Stop.need_more_data⟩
    | some (message, rest) =>
      match parse_message message with
      | none => ⟨[], partitions, rest, Stop.fault⟩
      | some request =>
        let r := process_buffer fuel (execute partitions request).2 rest
        ⟨(execute partitions request).1 :: r.sent, r.partitions, r.buffer, r.stop⟩

/-- One iteration of the outer loop of `handle_client` after a successful `recv`:
the received bytes are appended to the connection buffer and the inner loop runs.
Every completed inner iteration removes at least the 17 header bytes, so
`length + 1` iterations are never exhausted. -/
def on_recv (partitions : Partitions) (buffer received : Bytes) : LoopResult :=
  process_buffer ((buffer ++ received).length + 1) partitions (buffer ++ received)

/-- The outer loop of `handle_client` over the successive results of `recv`
(`reads`), from the given connection buffer: for each read, the responses sent
while handling it; then the final partitions and buffer.  A fault ends the
handler. -/
def handle_reads (partitions : Partitions) (buffer : Bytes) :
    List Bytes → List (List Bytes) × Partitions × Bytes × Stop
  | [] => ([], partitions, buffer, Stop.need_more_data)
  | received :: reads =>
    let r := on_recv partitions buffer received
    match r.stop with
    | Stop.need_more_data =>
      let t := handle_reads r.partitions r.buffer reads
      (r.sent :: t.1, t.2)
    | s => ([r.sent], r.partitions, r.buffer, s)

/-- The function `handle_client` on a fresh connection: `client_buffer` starts
empty. -/
def handle_client (partitions : Partitions) (reads : List Bytes) :
    List (List Bytes) × Partitions × Bytes × Stop :=
  handle_reads partitions [] reads


/-! ## Client: connections and the command round trip (`src/client.cpp`) -/

/-- The constant `MAX_BUFFER_SIZE` of `client.cpp`. -/
abbrev MAX_BUFFER_SIZE : Nat := 1024

/-- Result of the non-blocking `recv(sock, &buffer, 1, MSG_PEEK | MSG_DONTWAIT)` in
`is_socket_alive`. -/
inductive Peek where
  /-- Return value 0: the peer has closed the connection. -/
  | closed : Peek
  /-- Negative return value with `errno` `EAGAIN` or `EWOULDBLOCK`. -/
  | would_block : Peek
  /-- Negative return value with any other `errno`. -/
  | error : Peek
  /-- Positive return value: data is waiting. -/
  | data : Peek
  deriving DecidableEq, Repr

/-- The socket layer the client calls into; `W` is the state of everything outside
the client object (kernel, network, servers). -/
structure Sockets (W : Type) where
  /-- The calls `socket` and `connect` of `connect_to_server` for `servers[server_id]`:
  the connected descriptor, or `-1` when either call fails (the descriptor is then
  already closed). -/
  open_socket : Nat → W → Int × W
  /-- The `recv` with `MSG_PEEK | MSG_DONTWAIT` of `is_socket_alive`. -/
  peek : Int → W → Peek × W
  /-- The call `close(sock)`. -/
  close : Int → W → W
  /-- The call `send(sock, data, len, 0)`: its return value. -/
  send : Int → Bytes → W → Int × W
  /-- The call `recv(sock, buffer, len, 0)`: `none` for a negative return value,
  otherwise the bytes written to `buffer` (their number is the return value). -/
  recv : Int → Nat → W → Option Bytes × W

/-- What a `FinchClient` is constructed with. -/
structure Client (W : Type) where
  /-- The socket layer. -/
  net : Sockets W
  /-- The function object `std::hash<std::string>`. -/
  hasher : Bytes → Nat
  /-- The number `servers.size()` (the constructor rejects an empty list). -/
  server_count : Nat

/-- The member `connections`: server id to descriptor, `-1` for no connection. -/
abbrev Connections := Nat → Int

/-- The member function `FinchClient::is_socket_alive`. -/
def is_socket_alive {W : Type} (net : Sockets W) (sock : Int) (w : W) : Bool × W :=
  match net.peek sock w with
  | (Peek.closed, w1) => (false, w1)
  | (Peek.would_block, w1) => (true, w1)
  | (Peek.error, w1) => (false, w1)
  | (Peek.data, w1) => (true, w1)

/-- The second half of `connect_to_server` ("Establish a new connection"). -/
def establish {W : Type} (net : Sockets W) (server_id : Nat) (connections : Connections)
    (w : W) : Int × Connections × W :=
  let r := net.open_socket server_id w
  if r.1 = -1 then (-1, connections, r.2)
  else (r.1, Function.update connections server_id r.1, r.2)

/-- The member function `FinchClient::connect_to_server`: the descriptor returned (or `-1`), and the
connection table and the outside world afterwards. -/
def connect_to_server {W : Type} (net : Sockets W) (server_id : Nat)
    (connections : Connections) (w : W) : Int × Connections × W :=
  if connections server_id ≠ -1 then
    let a := is_socket_alive net (connections server_id) w
    if a.1 then (connections server_id, connections, a.2)
    else
      establish net server_id (Function.update connections server_id (-1))
        (net.close (connections server_id) a.2)
  else establish net server_id connections w

/-- How the send loop of `send_command` ended. -/
inductive SendResult (W : Type) where
  /-- The loop condition became false: everything was handed to `send`. -/
  | sent (sock : Int) (connections : Connections) (w : W) : SendResult W
  /-- The statement `return false` after a failed reconnect. -/
  | failed (connections : Connections) (w : W) : SendResult W
  /-- The iteration budget of the embedding ran out. -/
  | out_of_fuel : SendResult W

/-- The loop `while (total_sent < message_size)` of `send_command` ("Send the
message"), run for at most `fuel` iterations. -/
def send_loop {W : Type} (net : Sockets W) (server_id : Nat) (message : Bytes) :
    Nat → Nat → Int → Connections → W → SendResult W
  | 0, _, _, _, _ => SendResult.out_of_fuel
  | fuel + 1, total_sent, sock, connections, w =>
    if total_sent < message.length then
      let r := net.send sock (message.drop total_sent) w
      if r.1 ≤ 0 then
        let w1 := net.close sock r.2
        let connections1 := Function.update connections server_id (-1)
        let c := connect_to_server net server_id connections1 w1
        if c.1 = -1 then SendResult.failed c.2.1 c.2.2
        else send_loop net server_id message fuel total_sent c.1 c.2.1 c.2.2
      else send_loop net server_id message fuel (total_sent + r.1.toNat) sock connections r.2
    else SendResult.sent sock connections w

/-- The statement `response.erase(response.find_last_not_of("\n\r") + 1)`: trailing
line feeds (10) and carriage returns (13) are removed. -/
def strip_line_endings (response : Bytes) : Bytes :=
  response.rdropWhile (fun b => b == 10 || b == 13)

/-- What `send_command` hands back: `reply` is `none` for `return false`, and the
pair (`status_code`, `response`) for `return true`. -/
structure CommandResult (W : Type) where
  /-- The out-parameters when the call returns `true`. -/
  reply : Option (Byte × Bytes)
  /-- The connection table afterwards. -/
  connections : Connections
  /-- The outside world afterwards. -/
  world : W

/-- The tail of `send_command` ("Receive the response"): one `recv` of at most
`MAX_BUFFER_SIZE - 1` bytes and the split into status code and response. -/
def receive_response {W : Type} (net : Sockets W) (server_id : Nat) (sock : Int)
    (connections : Connections) (w : W) : CommandResult W :=
  match net.recv sock (MAX_BUFFER_SIZE - 1) w with
  | (some [], w1) =>
    ⟨none, Function.update connections server_id (-1), net.close sock w1⟩
  | (some (b :: bs), w1) =>
    match strip_line_endings (b :: bs) with
    | [] => ⟨none, connections, w1⟩
    | status_code :: response => ⟨some (status_code, response), connections, w1⟩
  | (none, w1) =>
    ⟨none, Function.update connections server_id (-1), net.close sock w1⟩

/-- The second half of `send_command`, from "Send the message" to the end: the send
loop with at most `fuel` iterations (`none` when that budget runs out), then the
receive step. -/
def send_and_receive {W : Type} (net : Sockets W) (server_id : Nat) (message : Bytes)
    (fuel : Nat) (sock : Int) (connections : Connections) (w : W) :
    Option (CommandResult W) :=
  match send_loop net server_id message fuel 0 sock connections w with
  | SendResult.out_of_fuel => none
  | SendResult.failed connections1 w1 => some ⟨none, connections1, w1⟩
  | SendResult.sent sock1 connections1 w1 =>
    some (receive_response net server_id sock1 connections1 w1)

/-- The member function `FinchClient::send_command`, with at most `fuel` iterations of its send loop;
`none` when that budget runs out. -/
def send_command {W : Type} (client : Client W) (fuel : Nat) (op_type : Byte)
    (key value : Bytes) (connections : Connections) (w : W) : Option (CommandResult W) :=
  if key = [] then some ⟨none, connections, w⟩
  else
    let key_hash := client.hasher key % 2 ^ 64
    let server_id := key_hash % client.server_count
    let c := connect_to_server client.net server_id connections w
    if c.1 = -1 then some ⟨none, c.2.1, c.2.2⟩
    else
      let message := build_message op_type key_hash key value
      send_and_receive client.net server_id message fuel c.1 c.2.1 c.2.2

/-- What a call of `FinchClient::get` yields. -/
inductive GetResult where
  /-- A returned string. -/
  | value (v : Bytes) : GetResult
  /-- A thrown `std::runtime_error` with this `what()`. -/
  | raised (what : Bytes) : GetResult
  deriving DecidableEq, Repr

/-- The member function `FinchClient::get`. -/
def get {W : Type} (client : Client W) (fuel : Nat) (key : Bytes)
    (connections : Connections) (w : W) : Option (GetResult × Connections × W) :=
  match send_command client fuel OP_GET key [] connections w with
  | none => none
  | some r =>
    match r.reply with
    | some (status_code, response) =>
      if status_code = byte '0'.toNat then some (GetResult.value response, r.connections, r.world)
      else some (GetResult.value [], r.connections, r.world)
    | none =>
      some (GetResult.raised (str "Failed to get the key: " ++ key), r.connections, r.world)

/-- The member function `FinchClient::put`. -/
def put {W : Type} (client : Client W) (fuel : Nat) (key value : Bytes)
    (connections : Connections) (w : W) : Option (Bool × Connections × W) :=
  match send_command client fuel OP_PUT key value connections w with
  | none => none
  | some r =>
    match r.reply with
    | some (status_code, _) =>
      some (decide (status_code = byte '0'.toNat), r.connections, r.world)
    | none => some (false, r.connections, r.world)

/-- The member function `FinchClient::del` (the diagnostic written to `std::cerr` is not modelled). -/
def del {W : Type} (client : Client W) (fuel : Nat) (key : Bytes)
    (connections : Connections) (w : W) : Option (Bool × Connections × W) :=
  match send_command client fuel OP_DEL key [] connections w with
  | none => none
  | some r =>
    match r.reply with
    | some (status_code, _) =>
      some (decide (status_code = byte '0'.toNat), r.connections, r.world)
    | none => some (false, r.connections, r.world)

/-! ## Client and servers joined by a loss-free transport

The environment named by "the server is reachable and there is no transport
failure": every `connect` succeeds, every `send` takes all the bytes, the handler
of the connection receives them in reads of at most its buffer size and answers at
once, and `recv` hands over the waiting response bytes, as many as fit. -/

/-- The constant `MAX_BUFFER_SIZE` of `server.cpp`: the size of `temp_buffer`. -/
abbrev SERVER_MAX_BUFFER_SIZE : Nat := 4096

/-- The successive results of the handler's `recv` for bytes arriving in one burst:
pieces of `SERVER_MAX_BUFFER_SIZE` bytes, the last one possibly shorter. -/
def split_reads : Nat → Bytes → List Bytes
  | 0, _ => []
  | fuel + 1, data =>
    if data = [] then []
    else data.take SERVER_MAX_BUFFER_SIZE :: split_reads fuel (data.drop SERVER_MAX_BUFFER_SIZE)

/-- The servers and the connections made to them. -/
structure Cluster where
  /-- The global `partitions` of each server process. -/
  stores : Nat → Partitions
  /-- The server a descriptor is connected to. -/
  peer : Int → Nat
  /-- The `client_buffer` of the handler serving a descriptor. -/
  pending : Int → Bytes
  /-- Response bytes sent by the handler and not yet received by the client. -/
  inbox : Int → Bytes
  /-- The next free descriptor. -/
  next_fd : Nat

/-- A new connection to `server_id`: a fresh descriptor served by a fresh handler. -/
def Cluster.open_socket (server_id : Nat) (w : Cluster) : Int × Cluster :=
  ((w.next_fd : Int),
    { w with
      peer := Function.update w.peer (w.next_fd : Int) server_id
      pending := Function.update w.pending (w.next_fd : Int) []
      inbox := Function.update w.inbox (w.next_fd : Int) []
      next_fd := w.next_fd + 1 })

/-- The liveness probe: the peer never closes, so the probe sees waiting data or
would block. -/
def Cluster.peek (sock : Int) (w : Cluster) : Peek × Cluster :=
  if w.inbox sock = [] then (Peek.would_block, w) else (Peek.data, w)

/-- Closing a descriptor discards what was buffered for it. -/
def Cluster.close (sock : Int) (w : Cluster) : Cluster :=
  { w with
    pending := Function.update w.pending sock []
    inbox := Function.update w.inbox sock [] }

/-- All bytes are taken; the handler of the connection consumes them read by read
(`handle_reads`) against the store of its server, and its responses queue up for the
client in the order sent. -/
def Cluster.send (sock : Int) (data : Bytes) (w : Cluster) : Int × Cluster :=
  let r := handle_reads (w.stores (w.peer sock)) (w.pending sock)
    (split_reads data.length data)
  ((data.length : Int),
    { w with
      stores := Function.update w.stores (w.peer sock) r.2.1
      pending := Function.update w.pending sock r.2.2.1
      inbox := Function.update w.inbox sock (w.inbox sock ++ r.1.flatten.flatten) })

/-- The waiting response bytes, at most `len` of them; with nothing waiting and
nothing under way the call cannot succeed, which is reported as an error. -/
def Cluster.recv (sock : Int) (len : Nat) (w : Cluster) : Option Bytes × Cluster :=
  if w.inbox sock = [] then (none, w)
  else
    (some ((w.inbox sock).take len),
      { w with inbox := Function.update w.inbox sock ((w.inbox sock).drop len) })

/-- The socket layer of the loss-free transport. -/
def Cluster.sockets : Sockets Cluster :=
  { open_socket := Cluster.open_socket
    peek := Cluster.peek
    close := Cluster.close
    send := Cluster.send
    recv := Cluster.recv }

/-- A client of `server_count` servers with hash function `hasher`, on the loss-free
transport. -/
def Cluster.client (hasher : Bytes → Nat) (server_count : Nat) : Client Cluster :=
  { net := Cluster.sockets, hasher := hasher, server_count := server_count }

/-- The connection table of a newly constructed `FinchClient`. -/
def no_connections : Connections := fun _ => -1

/-- A cluster of servers with empty stores and no connections. -/
def Cluster.empty : Cluster :=
  { stores := fun _ _ _ => none
    peer := fun _ => 0
    pending := fun _ => []
    inbox := fun _ => []
    next_fd := 3 }

/-- The cluster after the handler serving `sock` has applied `request` to the store
of its server and the client has received the whole response. -/
def Cluster.after_exchange (sock : Int) (request : Request) (w : Cluster) : Cluster :=
  { w with
    stores := Function.update w.stores (w.peer sock)
      (execute (w.stores (w.peer sock)) request).2
    pending := Function.update w.pending sock []
    inbox := Function.update w.inbox sock [] }

/-- A socket layer on which no server can be reached: every `connect` fails and
every call on a descriptor reports an error. -/
def Sockets.unreachable : Sockets Unit :=
  { open_socket := fun _ w => (-1, w)
    peek := fun _ w => (Peek.error, w)
    close := fun _ w => w
    send := fun _ _ w => (-1, w)
    recv := fun _ _ w => (none, w) }

/-! ## Wire layout as the specification words it -/

/-- Four bytes, most significant byte first, of (the low 32 bits of) `n`. -/
def be32 (n : Nat) : Bytes := [byte (n / 2 ^ 24), byte (n / 2 ^ 16), byte (n / 2 ^ 8), byte n]

/-- Eight bytes, most significant byte first, of (the low 64 bits of) `n`. -/
def be64 (n : Nat) : Bytes :=
  [byte (n / 2 ^ 56), byte (n / 2 ^ 48), byte (n / 2 ^ 40), byte (n / 2 ^ 32),
   byte (n / 2 ^ 24), byte (n / 2 ^ 16), byte (n / 2 ^ 8), byte n]

/-- The value the client computes for the `total_size` field ("Total Size
(uint32_t)" in `send_command`), as a function of the request. -/
def client_total_size (op_type : Byte) (key value : Bytes) : Nat :=
  if op_type = OP_PUT then
    ((4 + 1 + 8 + 4 + key.length % 2 ^ 32) % 2 ^ 32 + (4 + value.length)) % 2 ^ 32
  else (4 + 1 + 8 + 4 + key.length % 2 ^ 32) % 2 ^ 32

/-- The `key_length` the handler computes for an extracted message: the four bytes
at offset 13 ("Key Length" in `handle_client`), through `ntoh_uint32`. -/
def declared_key_length (message : Bytes) : Nat :=
  ntoh_uint32 (uint_of_bytes ((message.drop 13).take 4))

/-- The `value_length` the handler computes in its PUT branch: the four bytes that
follow the key ("Value Length" in `handle_client`), through `ntoh_uint32`. -/
def declared_value_length (message : Bytes) : Nat :=
  ntoh_uint32 (uint_of_bytes ((message.drop (17 + declared_key_length message)).take 4))

/-! ## A scripted socket layer

Outcomes of `send` and of `socket`/`connect` are taken from lists fixed in advance,
and the calls made are counted: a way to quantify over every sequence of send and
connect outcomes. -/

/-- The outside world of the scripted socket layer. -/
structure Scripted where
  /-- Return values of the calls of `send` still to come; once used up, `send` takes
  all the bytes it is given. -/
  send_results : List Int
  /-- Results of the `socket`/`connect` attempts still to come (a descriptor, or
  `-1`); once used up, every attempt fails. -/
  connect_results : List Int
  /-- What every `recv` yields. -/
  recv_result : Option Bytes
  /-- Number of `socket`/`connect` attempts made so far. -/
  connects : Nat
  /-- Number of calls of `send` so far that returned a value `<= 0`. -/
  failed_sends : Nat
  /-- Number of calls of `close` so far. -/
  closes : Nat
  deriving DecidableEq, Repr

/-- One `socket`/`connect` attempt: the next scripted result. -/
def Scripted.open_socket (_ : Nat) (w : Scripted) : Int × Scripted :=
  match w.connect_results with
  | [] => (-1, { w with connects := w.connects + 1 })
  | r :: rs => (r, { w with connect_results := rs, connects := w.connects + 1 })

/-- One call of `send`: the next scripted return value. -/
def Scripted.send (_ : Int) (data : Bytes) (w : Scripted) : Int × Scripted :=
  match w.send_results with
  | [] =>
    ((data.length : Int),
      { w with
        failed_sends := if (data.length : Int) ≤ 0 then w.failed_sends + 1 else w.failed_sends })
  | r :: rs =>
    (r,
      { w with
        send_results := rs
        failed_sends := if r ≤ 0 then w.failed_sends + 1 else w.failed_sends })

/-- The scripted socket layer. -/
def Scripted.sockets : Sockets Scripted :=
  { open_socket := Scripted.open_socket
    peek := fun _ w => (Peek.would_block, w)
    close := fun _ w => { w with closes := w.closes + 1 }
    send := Scripted.send
    recv := fun _ _ w => (w.recv_result, w) }

/-- The outside world at the end of the send loop, when the loop ended. -/
def SendResult.world {W : Type} : SendResult W → Option W
  | SendResult.sent _ _ w => some w
  | SendResult.failed _ w => some w
  | SendResult.out_of_fuel => none

/-- Whether the send loop ran to its end with everything handed to `send`. -/
def SendResult.is_sent {W : Type} : SendResult W → Bool
  | SendResult.sent _ _ _ => true
  | _ => false

/-- The `key_hash` the handler computes for an extracted message: the eight bytes at
offset 5 ("Key Hash" in `handle_client`), through `ntoh_uint64`. -/
def declared_key_hash (message : Bytes) : Nat :=
  ntoh_uint64 (uint_of_bytes ((message.drop 5).take 8))

/-! ## Byte-order lemmas -/

theorem byte_eq_iff (a b : Nat) : byte a = byte b ↔ a % 256 = b % 256 := by
  simp [byte, Fin.ext_iff]

theorem byte_val (a : Nat) : (byte a).val = a % 256 := rfl

theorem htonl_lt (v : Nat) : htonl v < 2 ^ 32 := by
  unfold htonl; omega

theorem htonl_digits (a b c d : Nat) (ha : a < 256) (hb : b < 256) (hc : c < 256)
    (hd : d < 256) :
    htonl (a + 256 * (b + 256 * (c + 256 * d))) = a * 2 ^ 24 + b * 2 ^ 16 + c * 2 ^ 8 + d := by
  unfold htonl; omega

theorem htonl_eq (v : Nat) :
    htonl v = (v % 256) * 2 ^ 24 + (v / 2 ^ 8 % 256) * 2 ^ 16 + (v / 2 ^ 16 % 256) * 2 ^ 8
      + v / 2 ^ 24 % 256 := rfl

theorem bytes_of_uint32_digits (a b c d : Nat) (hb : b < 256) (hc : c < 256)
    (hd : d < 256) :
    bytes_of_uint32 (a * 2 ^ 24 + b * 2 ^ 16 + c * 2 ^ 8 + d) = [byte d, byte c, byte b, byte a] := by
  simp only [bytes_of_uint32, List.cons.injEq, byte_eq_iff, and_true]
  refine ⟨?_, ?_, ?_, ?_⟩ <;> omega

theorem bytes_of_htonl (v : Nat) : bytes_of_uint32 (htonl v) = be32 v := by
  rw [htonl_eq, bytes_of_uint32_digits _ _ _ _
    (Nat.mod_lt _ (by decide)) (Nat.mod_lt _ (by decide)) (Nat.mod_lt _ (by decide))]
  simp only [be32, List.cons.injEq, byte_eq_iff, and_true, Nat.mod_mod]

theorem and_mask32 (v : Nat) : v &&& 0xFFFFFFFF = v % 2 ^ 32 :=
  Nat.and_pow_two_sub_one_eq_mod v 32

theorem shl32_or (a b : Nat) (h : b < 2 ^ 32) : (a <<< 32) ||| b = a * 2 ^ 32 + b := by
  rw [Nat.shiftLeft_eq, Nat.mul_comm, Nat.mul_add_lt_is_or h]

theorem hton_uint64_eq (v : Nat) :
    hton_uint64 v = htonl (v % 2 ^ 32) * 2 ^ 32 + htonl (v / 2 ^ 32 % 2 ^ 32) := by
  have h1 := htonl_lt (v % 2 ^ 32)
  have h2 := htonl_lt (v / 2 ^ 32 % 2 ^ 32)
  simp only [hton_uint64, and_mask32, Nat.shiftRight_eq_div_pow, Nat.mod_mod]
  rw [shl32_or _ _ h2]
  generalize htonl (v % 2 ^ 32) = x at *
  generalize htonl (v / 2 ^ 32 % 2 ^ 32) = y at *
  omega

theorem ntoh_uint64_eq (v : Nat) :
    ntoh_uint64 v = htonl (v % 2 ^ 32) * 2 ^ 32 + htonl (v / 2 ^ 32 % 2 ^ 32) := by
  have h1 := htonl_lt (v % 2 ^ 32)
  have h2 := htonl_lt (v / 2 ^ 32 % 2 ^ 32)
  simp only [ntoh_uint64, ntohl, and_mask32, Nat.shiftRight_eq_div_pow, Nat.mod_mod]
  rw [shl32_or _ _ h2]
  generalize htonl (v % 2 ^ 32) = x at *
  generalize htonl (v / 2 ^ 32 % 2 ^ 32) = y at *
  omega

theorem bytes_of_uint64_split (l h : Nat) (hh : h < 2 ^ 32) :
    bytes_of_uint64 (l * 2 ^ 32 + h) = bytes_of_uint32 h ++ bytes_of_uint32 l := by
  simp only [bytes_of_uint64, bytes_of_uint32, List.cons_append, List.nil_append,
    List.cons.injEq, byte_eq_iff, and_true]
  refine ⟨?_, ?_, ?_, ?_, ?_, ?_, ?_, ?_⟩ <;> omega

theorem be64_split (v : Nat) : be64 v = be32 (v / 2 ^ 32 % 2 ^ 32) ++ be32 (v % 2 ^ 32) := by
  simp only [be64, be32, List.cons_append, List.nil_append, List.cons.injEq, byte_eq_iff,
    and_true]
  refine ⟨?_, ?_, ?_, ?_, ?_, ?_, ?_, ?_⟩ <;> omega

theorem bytes_of_hton_uint32 (v : Nat) : bytes_of_uint32 (hton_uint32 v) = be32 v :=
  bytes_of_htonl v

theorem bytes_of_hton_uint64 (v : Nat) : bytes_of_uint64 (hton_uint64 v) = be64 v := by
  rw [hton_uint64_eq, bytes_of_uint64_split _ _ (htonl_lt _), bytes_of_htonl, bytes_of_htonl,
    be64_split]

theorem uint_of_be32 (n : Nat) :
    uint_of_bytes (be32 n) = n / 2 ^ 24 % 256 + 256 * (n / 2 ^ 16 % 256 + 256 * (n / 2 ^ 8 % 256
      + 256 * (n % 256))) := by
  simp only [be32, uint_of_bytes, byte_val]
  omega

theorem uint_of_be32_lt (n : Nat) : uint_of_bytes (be32 n) < 2 ^ 32 := by
  rw [uint_of_be32]; omega

theorem htonl_uint_of_be32 (n : Nat) : htonl (uint_of_bytes (be32 n)) = n % 2 ^ 32 := by
  rw [uint_of_be32, htonl_digits _ _ _ _ (Nat.mod_lt _ (by decide)) (Nat.mod_lt _ (by decide))
    (Nat.mod_lt _ (by decide)) (Nat.mod_lt _ (by decide))]
  omega

theorem ntoh_uint32_be32 (n : Nat) : ntoh_uint32 (uint_of_bytes (be32 n)) = n % 2 ^ 32 :=
  htonl_uint_of_be32 n

theorem be32_length (n : Nat) : (be32 n).length = 4 := rfl

theorem be64_length (n : Nat) : (be64 n).length = 8 := rfl

theorem uint_of_bytes_append (xs ys : Bytes) :
    uint_of_bytes (xs ++ ys) = uint_of_bytes xs + 256 ^ xs.length * uint_of_bytes ys := by
  induction xs with
  | nil => simp [uint_of_bytes]
  | cons x xs ih =>
    rw [List.cons_append]
    simp only [uint_of_bytes, List.length_cons]
    rw [ih]; ring

theorem ntoh_uint64_be64 (n : Nat) : ntoh_uint64 (uint_of_bytes (be64 n)) = n % 2 ^ 64 := by
  have ha := uint_of_be32_lt (n / 2 ^ 32 % 2 ^ 32)
  have hb := uint_of_be32_lt (n % 2 ^ 32)
  have e1 : (uint_of_bytes (be32 (n / 2 ^ 32 % 2 ^ 32))
      + 256 ^ 4 * uint_of_bytes (be32 (n % 2 ^ 32))) % 2 ^ 32
      = uint_of_bytes (be32 (n / 2 ^ 32 % 2 ^ 32)) := by
    generalize uint_of_bytes (be32 (n / 2 ^ 32 % 2 ^ 32)) = a at *
    generalize uint_of_bytes (be32 (n % 2 ^ 32)) = b at *
    omega
  have e2 : (uint_of_bytes (be32 (n / 2 ^ 32 % 2 ^ 32))
      + 256 ^ 4 * uint_of_bytes (be32 (n % 2 ^ 32))) / 2 ^ 32 % 2 ^ 32
      = uint_of_bytes (be32 (n % 2 ^ 32)) := by
    generalize uint_of_bytes (be32 (n / 2 ^ 32 % 2 ^ 32)) = a at *
    generalize uint_of_bytes (be32 (n % 2 ^ 32)) = b at *
    omega
  rw [ntoh_uint64_eq, be64_split, uint_of_bytes_append]
  rw [be32_length, e1, e2, htonl_uint_of_be32, htonl_uint_of_be32]
  omega

/-! ## Shape of the frames built by the client -/

theorem be32_mod (n : Nat) : be32 (n % 2 ^ 32) = be32 n := by
  simp only [be32, List.cons.injEq, byte_eq_iff, and_true]
  refine ⟨?_, ?_, ?_, ?_⟩ <;> omega

theorem build_message_eq (op : Byte) (h : Nat) (key value : Bytes) :
    build_message op h key value
      = be32 (client_total_size op key value) ++ ([op] ++ (be64 h ++ (be32 key.length
          ++ (key ++ (if op = OP_PUT then be32 value.length ++ value else []))))) := by
  unfold build_message client_total_size
  by_cases hop : op = OP_PUT
  · simp only [hop, if_true, bytes_of_hton_uint32, bytes_of_hton_uint64, be32_mod,
      List.nil_append, List.append_assoc]
  · simp only [hop, if_false, bytes_of_hton_uint32, bytes_of_hton_uint64, be32_mod,
      List.nil_append, List.append_assoc, List.append_nil]

theorem build_message_length (op : Byte) (h : Nat) (key value : Bytes) :
    (build_message op h key value).length
      = 17 + key.length + (if op = OP_PUT then 4 + value.length else 0) := by
  rw [build_message_eq]
  by_cases hop : op = OP_PUT
  · simp only [hop, if_true, List.length_append, be32_length, be64_length, List.length_cons,
      List.length_nil]
    omega
  · simp only [hop, if_false, List.length_append, be32_length, be64_length, List.length_cons,
      List.length_nil]
    omega

theorem client_total_size_eq (op : Byte) (h : Nat) (key value : Bytes)
    (hsize : (build_message op h key value).length < 2 ^ 32) :
    client_total_size op key value = (build_message op h key value).length := by
  rw [build_message_length] at *
  unfold client_total_size
  by_cases hop : op = OP_PUT
  · simp only [hop, if_true] at *; omega
  · simp only [hop, if_false] at *; omega

theorem take_be32_append (n : Nat) (xs : Bytes) : (be32 n ++ xs).take 4 = be32 n := by
  simp [be32]

theorem read_total_size_be32 (n : Nat) (xs : Bytes) :
    read_total_size (be32 n ++ xs) = n % 2 ^ 32 := by
  unfold read_total_size
  rw [take_be32_append, ntoh_uint32_be32]

theorem read_total_size_build (op : Byte) (h : Nat) (key value rest : Bytes)
    (hsize : (build_message op h key value).length < 2 ^ 32) :
    read_total_size (build_message op h key value ++ rest)
      = (build_message op h key value).length := by
  have e := client_total_size_eq op h key value hsize
  rw [build_message_eq, List.append_assoc, read_total_size_be32, ← build_message_eq, e]
  exact Nat.mod_eq_of_lt hsize

theorem extract_message_append (frame rest : Bytes) (h4 : 4 ≤ frame.length)
    (ht : read_total_size (frame ++ rest) = frame.length) :
    extract_message (frame ++ rest) = some (frame, rest) := by
  unfold extract_message
  have h1 : ¬ (frame ++ rest).length < 4 := by simp only [List.length_append]; omega
  have h2 : ¬ (frame ++ rest).length < frame.length := by
    simp only [List.length_append]; omega
  simp only [h1, if_false, ht, h2, List.take_left, List.drop_left]

/-! ## Decoding a frame built by the client -/

theorem memcpy_uint_mid (pre x post : Bytes) (n off : Nat) (hn : x.length = n)
    (hoff : pre.length = off) :
    memcpy_uint n (pre ++ (x ++ post)) off = some (uint_of_bytes x) := by
  subst hn hoff
  unfold memcpy_uint
  have hle : pre.length + x.length ≤ (pre ++ (x ++ post)).length := by
    simp only [List.length_append]; omega
  rw [if_pos hle, List.drop_left, List.take_left]

theorem drop_take_mid (pre x post : Bytes) (n off : Nat) (hn : x.length = n)
    (hoff : pre.length = off) :
    ((pre ++ (x ++ post)).drop off).take n = x := by
  subst hn hoff
  rw [List.drop_left, List.take_left]

theorem get?_mid (pre post : Bytes) (b : Byte) (off : Nat) (hoff : pre.length = off) :
    (pre ++ (b :: post)).get? off = some b := by
  subst hoff
  induction pre with
  | nil => rfl
  | cons a pre ih => simpa using ih

/-- The outcome of the decoding steps on a message laid out as prefix, operation
type, key hash, key length, key and (for PUT) value length and value. -/
theorem parse_message_layout (t h : Nat) (op : Byte) (key value : Bytes)
    (hk : key.length < 2 ^ 32) (hv : value.length < 2 ^ 32) :
    parse_message (be32 t ++ ([op] ++ (be64 h ++ (be32 key.length
        ++ (key ++ (if op = 2 then be32 value.length ++ value else []))))))
      = some (if op = 1 then Request.get (h % 2 ^ 64) key
          else if op = 2 then Request.put (h % 2 ^ 64) key value
          else if op = 3 then Request.del (h % 2 ^ 64) key
          else Request.unknown op (h % 2 ^ 64) key) := by
  generalize htail : (if op = 2 then be32 value.length ++ value else []) = tail
  have hop : (be32 t ++ ([op] ++ (be64 h ++ (be32 key.length ++ (key ++ tail))))).get? 4
      = some op := get?_mid (be32 t) _ op 4 rfl
  have hh : memcpy_uint 8 (be32 t ++ ([op] ++ (be64 h ++ (be32 key.length ++ (key ++ tail))))) 5
      = some (uint_of_bytes (be64 h)) := by
    have := memcpy_uint_mid (be32 t ++ [op]) (be64 h) (be32 key.length ++ (key ++ tail)) 8 5
      rfl rfl
    simpa only [List.append_assoc] using this
  have hkl : memcpy_uint 4 (be32 t ++ ([op] ++ (be64 h ++ (be32 key.length ++ (key ++ tail))))) 13
      = some (uint_of_bytes (be32 key.length)) := by
    have := memcpy_uint_mid (be32 t ++ ([op] ++ be64 h)) (be32 key.length) (key ++ tail) 4 13
      rfl rfl
    simpa only [List.append_assoc] using this
  have hkey : ((be32 t ++ ([op] ++ (be64 h ++ (be32 key.length ++ (key ++ tail))))).drop 17).take
      key.length = key := by
    have := drop_take_mid (be32 t ++ ([op] ++ (be64 h ++ be32 key.length))) key tail key.length 17
      rfl rfl
    simpa only [List.append_assoc] using this
  have hlen : (be32 t ++ ([op] ++ (be64 h ++ (be32 key.length ++ (key ++ tail))))).length
      = 17 + key.length + tail.length := by
    simp only [List.length_append, be32_length, be64_length, List.length_cons, List.length_nil]
    omega
  have hkmod : key.length % 2 ^ 32 = key.length := Nat.mod_eq_of_lt hk
  have hvmod : value.length % 2 ^ 32 = value.length := Nat.mod_eq_of_lt hv
  unfold parse_message
  simp only [Nat.zero_add, Nat.reduceAdd, hop, hh, hkl, ntoh_uint32_be32, ntoh_uint64_be64, hkmod,
    hkey, hlen]
  have hfit : ¬ (17 + key.length > 17 + key.length + tail.length) := by omega
  rw [if_neg hfit]
  by_cases h1 : op = 1
  · simp only [h1, if_true]
  · by_cases h2 : op = 2
    · subst h2
      simp only [if_true] at htail
      subst htail
      have hvl : memcpy_uint 4 (be32 t ++ ([(2 : Byte)] ++ (be64 h ++ (be32 key.length
          ++ (key ++ (be32 value.length ++ value)))))) (17 + key.length)
          = some (uint_of_bytes (be32 value.length)) := by
        have := memcpy_uint_mid (be32 t ++ ([(2 : Byte)] ++ (be64 h ++ (be32 key.length ++ key))))
          (be32 value.length) value 4 (17 + key.length) rfl
          (by simp only [List.length_append, be32_length, be64_length, List.length_cons,
                List.length_nil]; omega)
        simpa only [List.append_assoc] using this
      have hval : ((be32 t ++ ([(2 : Byte)] ++ (be64 h ++ (be32 key.length
          ++ (key ++ (be32 value.length ++ value)))))).drop (17 + key.length + 4)).take
          value.length = value := by
        have := drop_take_mid (be32 t ++ ([(2 : Byte)] ++ (be64 h ++ (be32 key.length
          ++ (key ++ be32 value.length))))) value [] value.length (17 + key.length + 4) rfl
          (by simp only [List.length_append, be32_length, be64_length, List.length_cons,
                List.length_nil]; omega)
        simpa only [List.append_assoc, List.append_nil] using this
      have hf1 : ¬ (17 + key.length + 4 > 17 + key.length + (be32 value.length ++ value).length) := by
        simp only [List.length_append, be32_length]; omega
      have hf2 : ¬ (17 + key.length + 4 + value.length
          > 17 + key.length + (be32 value.length ++ value).length) := by
        simp only [List.length_append, be32_length]; omega
      simp only [h1, if_false, if_true, hf1, hvl, ntoh_uint32_be32, hvmod, hf2, hval]
    · by_cases h3 : op = 3
      · subst h3
        simp
      · simp only [h1, h2, h3, if_false]

theorem parse_build_message (op : Byte) (h : Nat) (key value : Bytes)
    (hk : key.length < 2 ^ 32) (hv : value.length < 2 ^ 32) :
    parse_message (build_message op h key value)
      = some (if op = 1 then Request.get (h % 2 ^ 64) key
          else if op = 2 then Request.put (h % 2 ^ 64) key value
          else if op = 3 then Request.del (h % 2 ^ 64) key
          else Request.unknown op (h % 2 ^ 64) key) := by
  rw [build_message_eq]
  exact parse_message_layout _ h op key value hk hv

theorem extract_build_message (op : Byte) (h : Nat) (key value rest : Bytes)
    (hsize : (build_message op h key value).length < 2 ^ 32) :
    extract_message (build_message op h key value ++ rest)
      = some (build_message op h key value, rest) := by
  apply extract_message_append
  · rw [build_message_length]; omega
  · exact read_total_size_build op h key value rest hsize

theorem build_message_not_put (op : Byte) (h : Nat) (key value : Bytes) (hop : op ≠ OP_PUT) :
    build_message op h key value = build_message op h key [] := by
  rw [build_message_eq, build_message_eq]
  simp only [client_total_size, hop, if_false]

/-- Reading the four bytes of `be32 n` with the first byte most significant gives
back the low 32 bits of `n`. -/
theorem be32_value (n : Nat) :
    (be32 n).foldl (fun acc b => acc * 256 + b.val) 0 = n % 2 ^ 32 := by
  simp only [be32, List.foldl, byte_val]
  omega

/-- Reading the eight bytes of `be64 n` with the first byte most significant gives
back the low 64 bits of `n`. -/
theorem be64_value (n : Nat) :
    (be64 n).foldl (fun acc b => acc * 256 + b.val) 0 = n % 2 ^ 64 := by
  simp only [be64, List.foldl, byte_val]
  omega

theorem parse_client_frame (op : Byte) (h : Nat) (key value : Bytes)
    (hop : op = OP_GET ∨ op = OP_PUT ∨ op = OP_DEL) (hh : h < 2 ^ 64)
    (hsize : (build_message op h key value).length < 2 ^ 32) :
    parse_message (build_message op h key value)
      = some (if op = OP_GET then Request.get h key
          else if op = OP_PUT then Request.put h key value
          else Request.del h key) := by
  have hlen := build_message_length op h key value
  have hmod : h % 2 ^ 64 = h := Nat.mod_eq_of_lt hh
  rcases hop with hop | hop | hop
  · subst hop
    rw [build_message_not_put _ _ _ _ (by decide),
      parse_build_message _ _ _ _ (by omega) (by simp), hmod]
    simp [OP_GET, OP_PUT]
  · subst hop
    simp only [if_true] at hlen
    rw [parse_build_message _ _ _ _ (by omega) (by omega), hmod]
    simp [OP_GET, OP_PUT]
  · subst hop
    rw [build_message_not_put _ _ _ _ (by decide),
      parse_build_message _ _ _ _ (by omega) (by simp), hmod]
    simp [OP_GET, OP_PUT, OP_DEL]

/-- C1. A frame built by the client's `send_command` for GET, PUT or DELETE, a
64-bit key hash, a key and a value (frame size below 2^32), standing at the front of
the pending buffer, is extracted by `handle_client` as exactly that frame, the bytes
behind it stay in the buffer untouched, and the handler decodes the operation, the
key hash, the key and (for PUT) the value exactly as the client supplied them. -/
theorem handle_client_decodes_client_frame (op : Byte) (h : Nat) (key value rest : Bytes)
    (hop : op = OP_GET ∨ op = OP_PUT ∨ op = OP_DEL) (hh : h < 2 ^ 64)
    (hsize : (build_message op h key value).length < 2 ^ 32) :
    extract_message (build_message op h key value ++ rest)
        = some (build_message op h key value, rest)
      ∧ parse_message (build_message op h key value)
        = some (if op = OP_GET then Request.get h key
            else if op = OP_PUT then Request.put h key value
            else Request.del h key) :=
  ⟨extract_build_message op h key value rest hsize,
    parse_client_frame op h key value hop hh hsize⟩

/-- Witness for C1: a PUT of key "k" and value "v" with two further bytes behind it. -/
theorem handle_client_decodes_client_frame_witness :
    extract_message (build_message OP_PUT 7 [107] [118] ++ [1, 2])
        = some (build_message OP_PUT 7 [107] [118], [1, 2])
      ∧ parse_message (build_message OP_PUT 7 [107] [118])
        = some (if OP_PUT = OP_GET then Request.get 7 [107]
            else if OP_PUT = OP_PUT then Request.put 7 [107] [118]
            else Request.del 7 [107]) :=
  handle_client_decodes_client_frame OP_PUT 7 [107] [118] [1, 2] (by decide) (by decide)
    (by decide)

/-- C2, as stated, fails: for GET of the one-byte key "k" the prefix holds 18, while
only 14 = 1 + 8 + 4 + 1 bytes follow the prefix. -/
theorem total_size_is_not_the_byte_count_after_the_prefix :
    read_total_size (build_message OP_GET 0 [107] []) = 18
      ∧ ((build_message OP_GET 0 [107] []).drop 4).length = 1 + 8 + 4 + 1
      ∧ read_total_size (build_message OP_GET 0 [107] [])
          ≠ ((build_message OP_GET 0 [107] []).drop 4).length := by
  decide

/-- C2, amended. In every frame the client builds (frame size below 2^32) the 4-byte
prefix holds, most significant byte first, the length of the whole frame, prefix
included: 4 + 1 + 8 + 4 + key_len, plus 4 + value_len for PUT; the server reads
exactly that number back. -/
theorem total_size_is_whole_frame_length (op : Byte) (h : Nat) (key value : Bytes)
    (hsize : (build_message op h key value).length < 2 ^ 32) :
    (build_message op h key value).take 4 = be32 (build_message op h key value).length
      ∧ read_total_size (build_message op h key value) = (build_message op h key value).length
      ∧ (build_message op h key value).length
          = 4 + 1 + 8 + 4 + key.length + (if op = OP_PUT then 4 + value.length else 0) := by
  refine ⟨?_, ?_, ?_⟩
  · have e := client_total_size_eq op h key value hsize
    rw [← e, build_message_eq, take_be32_append]
  · simpa using read_total_size_build op h key value [] hsize
  · rw [build_message_length]

/-- Witness for the amended C2: a PUT frame of key "k" and value "vw". -/
theorem total_size_is_whole_frame_length_witness :
    (build_message OP_PUT 9 [107] [118, 119]).take 4
        = be32 (build_message OP_PUT 9 [107] [118, 119]).length
      ∧ read_total_size (build_message OP_PUT 9 [107] [118, 119])
        = (build_message OP_PUT 9 [107] [118, 119]).length
      ∧ (build_message OP_PUT 9 [107] [118, 119]).length
          = 4 + 1 + 8 + 4 + [(107 : Byte)].length
            + (if OP_PUT = OP_PUT then 4 + [(118 : Byte), 119].length else 0) :=
  total_size_is_whole_frame_length OP_PUT 9 [107] [118, 119] (by decide)

/-- C3. After the 4-byte prefix, a frame built by the client consists of, in order:
the operation byte; the key hash as 8 bytes, most significant first; the key length
as 4 bytes, most significant first; the key bytes; and, only for PUT, the value
length as 4 bytes, most significant first, followed by the value bytes.  (`be32`
and `be64` are the low 32 / 64 bits, which is the number itself for a `uint32_t` /
`uint64_t`.) -/
theorem build_message_body_layout (op : Byte) (h : Nat) (key value : Bytes) :
    (build_message op h key value).drop 4
      = [op] ++ be64 h ++ be32 key.length ++ key
          ++ (if op = OP_PUT then be32 value.length ++ value else []) := by
  rw [build_message_eq]
  have : (be32 (client_total_size op key value)).length = 4 := rfl
  rw [← this, List.drop_left]
  simp only [List.append_assoc]

/-! ## The inner loop of the connection handler -/

theorem extract_message_some {buffer message rest : Bytes}
    (h : extract_message buffer = some (message, rest)) :
    buffer = message ++ rest ∧ message.length = read_total_size buffer ∧ 4 ≤ buffer.length := by
  unfold extract_message at h
  by_cases h1 : buffer.length < 4
  · simp [h1] at h
  · by_cases h2 : buffer.length < read_total_size buffer
    · simp [h1, h2] at h
    · simp only [h1, h2, if_false, Option.some.injEq, Prod.mk.injEq] at h
      obtain ⟨hm, hr⟩ := h
      subst hm hr
      refine ⟨(List.take_append_drop _ _).symm, ?_, by omega⟩
      rw [List.length_take]
      omega

theorem parse_message_short (message : Bytes) (h : message.length < 17) :
    parse_message message = none := by
  have h4 : memcpy_uint 4 message 13 = none := by
    unfold memcpy_uint
    rw [if_neg]
    omega
  unfold parse_message
  simp only [Nat.zero_add, Nat.reduceAdd, h4]
  split
  · rfl
  · split <;> rfl

theorem parse_message_some_length {message : Bytes} {request : Request}
    (h : parse_message message = some request) : 17 ≤ message.length := by
  by_contra hlt
  rw [parse_message_short message (by omega)] at h
  cases h

theorem process_buffer_break (fuel : Nat) (partitions : Partitions) (buffer : Bytes)
    (h : extract_message buffer = none) :
    process_buffer (fuel + 1) partitions buffer
      = ⟨[], partitions, buffer, Stop.need_more_data⟩ := by
  simp only [process_buffer, h]

theorem process_buffer_fault (fuel : Nat) (partitions : Partitions) (buffer message rest : Bytes)
    (he : extract_message buffer = some (message, rest)) (hp : parse_message message = none) :
    process_buffer (fuel + 1) partitions buffer = ⟨[], partitions, rest, Stop.fault⟩ := by
  simp only [process_buffer, he, hp]

theorem process_buffer_step (fuel : Nat) (partitions : Partitions) (buffer message rest : Bytes)
    (request : Request) (he : extract_message buffer = some (message, rest))
    (hp : parse_message message = some request) :
    process_buffer (fuel + 1) partitions buffer
      = ⟨(execute partitions request).1
            :: (process_buffer fuel (execute partitions request).2 rest).sent,
          (process_buffer fuel (execute partitions request).2 rest).partitions,
          (process_buffer fuel (execute partitions request).2 rest).buffer,
          (process_buffer fuel (execute partitions request).2 rest).stop⟩ := by
  simp only [process_buffer, he, hp]

/-- Once the fuel exceeds the buffer length, more fuel changes nothing. -/
theorem process_buffer_fuel (f1 : Nat) :
    ∀ (f2 : Nat) (partitions : Partitions) (buffer : Bytes),
      buffer.length < f1 → buffer.length < f2 →
      process_buffer f1 partitions buffer = process_buffer f2 partitions buffer := by
  induction f1 with
  | zero => intro f2 p b h1 _; omega
  | succ f1 ih =>
    intro f2 p b h1 h2
    cases f2 with
    | zero => omega
    | succ f2 =>
      cases he : extract_message b with
      | none => rw [process_buffer_break _ _ _ he, process_buffer_break _ _ _ he]
      | some mr =>
        obtain ⟨m, rest⟩ := mr
        cases hp : parse_message m with
        | none => rw [process_buffer_fault _ _ _ _ _ he hp, process_buffer_fault _ _ _ _ _ he hp]
        | some req =>
          have hl := parse_message_some_length hp
          have hb := (extract_message_some he).1
          have hlen : b.length = m.length + rest.length := by rw [hb, List.length_append]
          rw [process_buffer_step _ _ _ _ _ _ he hp, process_buffer_step _ _ _ _ _ _ he hp,
            ih f2 _ rest (by omega) (by omega)]

/-- The inner loop never exhausts the iteration budget `on_recv` gives it. -/
theorem process_buffer_stop (fuel : Nat) :
    ∀ (partitions : Partitions) (buffer : Bytes), buffer.length < fuel →
      (process_buffer fuel partitions buffer).stop ≠ Stop.out_of_fuel := by
  induction fuel with
  | zero => intro p b h; omega
  | succ fuel ih =>
    intro p b h
    cases he : extract_message b with
    | none => rw [process_buffer_break _ _ _ he]; simp
    | some mr =>
      obtain ⟨m, rest⟩ := mr
      cases hp : parse_message m with
      | none => rw [process_buffer_fault _ _ _ _ _ he hp]; simp
      | some req =>
        have hl := parse_message_some_length hp
        have hb := (extract_message_some he).1
        have hlen : b.length = m.length + rest.length := by rw [hb, List.length_append]
        rw [process_buffer_step _ _ _ _ _ _ he hp]
        exact ih _ rest (by omega)

theorem on_recv_break (partitions : Partitions) (pending received : Bytes)
    (h : extract_message (pending ++ received) = none) :
    on_recv partitions pending received
      = ⟨[], partitions, pending ++ received, Stop.need_more_data⟩ :=
  process_buffer_break _ _ _ h

theorem on_recv_fault (partitions : Partitions) (pending received message rest : Bytes)
    (he : extract_message (pending ++ received) = some (message, rest))
    (hp : parse_message message = none) :
    on_recv partitions pending received = ⟨[], partitions, rest, Stop.fault⟩ :=
  process_buffer_fault _ _ _ _ _ he hp

/-- One completed iteration of the inner loop: the response of the first message is
sent, and the loop goes on with the rest of the buffer, as if the rest had just
arrived on an empty buffer. -/
theorem on_recv_step (partitions : Partitions) (pending received message rest : Bytes)
    (request : Request) (he : extract_message (pending ++ received) = some (message, rest))
    (hp : parse_message message = some request) :
    on_recv partitions pending received
      = ⟨(execute partitions request).1
            :: (on_recv (execute partitions request).2 [] rest).sent,
          (on_recv (execute partitions request).2 [] rest).partitions,
          (on_recv (execute partitions request).2 [] rest).buffer,
          (on_recv (execute partitions request).2 [] rest).stop⟩ := by
  have hl := parse_message_some_length hp
  have hb := (extract_message_some he).1
  have hlen : (pending ++ received).length = message.length + rest.length := by
    rw [hb, List.length_append]
  unfold on_recv
  rw [process_buffer_step _ _ _ _ _ _ he hp, List.nil_append,
    process_buffer_fuel (pending ++ received).length (rest.length + 1) _ rest (by omega)
      (by omega)]

theorem on_recv_step_nil (partitions : Partitions) (received message rest : Bytes)
    (request : Request) (he : extract_message received = some (message, rest))
    (hp : parse_message message = some request) :
    on_recv partitions [] received
      = ⟨(execute partitions request).1
            :: (on_recv (execute partitions request).2 [] rest).sent,
          (on_recv (execute partitions request).2 [] rest).partitions,
          (on_recv (execute partitions request).2 [] rest).buffer,
          (on_recv (execute partitions request).2 [] rest).stop⟩ :=
  on_recv_step partitions [] received message rest request
    (by rw [List.nil_append]; exact he) hp

theorem on_recv_nil (partitions : Partitions) :
    on_recv partitions [] [] = ⟨[], partitions, [], Stop.need_more_data⟩ := rfl

/-- A single complete message in the buffer: one response, empty buffer afterwards. -/
theorem on_recv_single (partitions : Partitions) (pending received : Bytes) (request : Request)
    (he : extract_message (pending ++ received) = some (pending ++ received, []))
    (hp : parse_message (pending ++ received) = some request) :
    on_recv partitions pending received
      = ⟨[(execute partitions request).1], (execute partitions request).2, [],
          Stop.need_more_data⟩ := by
  rw [on_recv_step _ _ _ _ _ _ he hp, on_recv_nil]

/-! ## What the decoding steps yield on any message that holds the fixed header -/

/-- Characterisation of the decoding steps on a message of at least 17 bytes. -/
theorem parse_message_of_header (message : Bytes) (op : Byte) (h17 : 17 ≤ message.length)
    (hop : message.get? 4 = some op) :
    parse_message message
      = some (if 17 + declared_key_length message > message.length then Request.invalid
          else if op = 1 then
            Request.get (ntoh_uint64 (uint_of_bytes ((message.drop 5).take 8)))
              ((message.drop 17).take (declared_key_length message))
          else if op = 2 then
            if 17 + declared_key_length message + 4 > message.length then Request.invalid
            else if 17 + declared_key_length message + 4 + declared_value_length message
                > message.length then Request.invalid
            else
              Request.put (ntoh_uint64 (uint_of_bytes ((message.drop 5).take 8)))
                ((message.drop 17).take (declared_key_length message))
                ((message.drop (17 + declared_key_length message + 4)).take
                  (declared_value_length message))
          else if op = 3 then
            Request.del (ntoh_uint64 (uint_of_bytes ((message.drop 5).take 8)))
              ((message.drop 17).take (declared_key_length message))
          else
            Request.unknown op (ntoh_uint64 (uint_of_bytes ((message.drop 5).take 8)))
              ((message.drop 17).take (declared_key_length message))) := by
  have h8 : memcpy_uint 8 message 5 = some (uint_of_bytes ((message.drop 5).take 8)) := by
    unfold memcpy_uint; rw [if_pos]; omega
  have h4 : memcpy_uint 4 message 13 = some (uint_of_bytes ((message.drop 13).take 4)) := by
    unfold memcpy_uint; rw [if_pos]; omega
  unfold parse_message
  simp only [Nat.zero_add, Nat.reduceAdd, hop, h8, h4]
  rw [← declared_key_length]
  by_cases hk : 17 + declared_key_length message > message.length
  · rw [if_pos hk, if_pos hk]
  · rw [if_neg hk, if_neg hk]
    by_cases h1 : op = 1
    · rw [if_pos h1, if_pos h1]
    · rw [if_neg h1, if_neg h1]
      by_cases h2 : op = 2
      · rw [if_pos h2, if_pos h2]
        by_cases hv : 17 + declared_key_length message + 4 > message.length
        · rw [if_pos hv, if_pos hv]
        · rw [if_neg hv, if_neg hv]
          have hm : memcpy_uint 4 message (17 + declared_key_length message)
              = some (uint_of_bytes ((message.drop (17 + declared_key_length message)).take 4)) := by
            unfold memcpy_uint; rw [if_pos]; omega
          simp only [hm]
          rw [← declared_value_length]
          split <;> rfl
      · rw [if_neg h2, if_neg h2]
        split <;> rfl

/-! ## Malformed frames, short frames and unknown operation types -/

/-- C6. A completely received frame that holds the fixed header and whose declared
key length runs past the frame's declared end, or (for PUT) whose value-length
field or declared value length does, is answered with exactly
"1ERROR: Invalid message"; the partitions are unchanged, exactly the declared
`total_size` bytes are removed, and the loop goes on with the bytes behind the
frame exactly as if they had arrived without the malformed frame in front. -/
theorem malformed_frame_is_answered_and_skipped (partitions : Partitions)
    (pending received message rest : Bytes) (op : Byte)
    (he : extract_message (pending ++ received) = some (message, rest))
    (h17 : 17 ≤ message.length) (hop : message.get? 4 = some op)
    (hbad : 17 + declared_key_length message > message.length
      ∨ (op = 2 ∧ (17 + declared_key_length message + 4 > message.length
          ∨ 17 + declared_key_length message + 4 + declared_value_length message
              > message.length))) :
    on_recv partitions pending received
        = ⟨str "1ERROR: Invalid message" :: (on_recv partitions [] rest).sent,
            (on_recv partitions [] rest).partitions, (on_recv partitions [] rest).buffer,
            (on_recv partitions [] rest).stop⟩
      ∧ pending ++ received = message ++ rest
      ∧ message.length = read_total_size (pending ++ received) := by
  have hparse : parse_message message = some Request.invalid := by
    rw [parse_message_of_header message op h17 hop]
    rcases hbad with hk | ⟨h2, hv⟩
    · rw [if_pos hk]
    · by_cases hk : 17 + declared_key_length message > message.length
      · rw [if_pos hk]
      · have h1 : ¬ op = 1 := by rw [h2]; decide
        rw [if_neg hk, if_neg h1, if_pos h2]
        rcases hv with hv | hv
        · rw [if_pos hv]
        · by_cases hv4 : 17 + declared_key_length message + 4 > message.length
          · rw [if_pos hv4]
          · rw [if_neg hv4, if_pos hv]
  have hx := extract_message_some he
  exact ⟨on_recv_step partitions pending received message rest _ he hparse, hx.1, hx.2.1⟩

/-- Witness for C6: a GET frame of 18 bytes declaring a 5-byte key, followed by a
well-formed GET frame. -/
theorem malformed_frame_is_answered_and_skipped_witness :
    extract_message ([] ++ ([0, 0, 0, 18, 1, 0, 0, 0, 0, 0, 0, 0, 7, 0, 0, 0, 5, 107]
          ++ build_message OP_GET 7 [107] []))
        = some ([0, 0, 0, 18, 1, 0, 0, 0, 0, 0, 0, 0, 7, 0, 0, 0, 5, 107],
            build_message OP_GET 7 [107] [])
      ∧ 17 + declared_key_length [0, 0, 0, 18, 1, 0, 0, 0, 0, 0, 0, 0, 7, 0, 0, 0, 5, 107]
          > ([0, 0, 0, 18, 1, 0, 0, 0, 0, 0, 0, 0, 7, 0, 0, 0, 5, 107] : Bytes).length
      ∧ (on_recv (fun _ _ => none) []
            ([0, 0, 0, 18, 1, 0, 0, 0, 0, 0, 0, 0, 7, 0, 0, 0, 5, 107]
              ++ build_message OP_GET 7 [107] [])
          = ⟨str "1ERROR: Invalid message"
                :: (on_recv (fun _ _ => none) [] (build_message OP_GET 7 [107] [])).sent,
              (on_recv (fun _ _ => none) [] (build_message OP_GET 7 [107] [])).partitions,
              (on_recv (fun _ _ => none) [] (build_message OP_GET 7 [107] [])).buffer,
              (on_recv (fun _ _ => none) [] (build_message OP_GET 7 [107] [])).stop⟩
        ∧ [] ++ ([0, 0, 0, 18, 1, 0, 0, 0, 0, 0, 0, 0, 7, 0, 0, 0, 5, 107]
              ++ build_message OP_GET 7 [107] [])
            = [0, 0, 0, 18, 1, 0, 0, 0, 0, 0, 0, 0, 7, 0, 0, 0, 5, 107]
              ++ build_message OP_GET 7 [107] []
        ∧ ([0, 0, 0, 18, 1, 0, 0, 0, 0, 0, 0, 0, 7, 0, 0, 0, 5, 107] : Bytes).length
            = read_total_size ([] ++ ([0, 0, 0, 18, 1, 0, 0, 0, 0, 0, 0, 0, 7, 0, 0, 0, 5, 107]
                ++ build_message OP_GET 7 [107] []))) :=
  ⟨by decide, by decide,
    malformed_frame_is_answered_and_skipped (fun _ _ => none) []
      ([0, 0, 0, 18, 1, 0, 0, 0, 0, 0, 0, 0, 7, 0, 0, 0, 5, 107]
        ++ build_message OP_GET 7 [107] [])
      [0, 0, 0, 18, 1, 0, 0, 0, 0, 0, 0, 0, 7, 0, 0, 0, 5, 107]
      (build_message OP_GET 7 [107] []) 1 (by decide) (by decide) (by decide)
      (Or.inl (by decide))⟩

/-- Every completely received frame shorter than the 17 header bytes makes a header
read leave the extracted message. -/
theorem short_frame_faults (partitions : Partitions) (pending received message rest : Bytes)
    (he : extract_message (pending ++ received) = some (message, rest))
    (hshort : message.length < 17) :
    on_recv partitions pending received = ⟨[], partitions, rest, Stop.fault⟩ :=
  on_recv_fault partitions pending received message rest he (parse_message_short message hshort)

/-- C7 fails on the pending bytes 00 00 00 04 (declared `total_size` 4): the handler
extracts the four bytes as a message, removes them, and then reads `message[4]`,
one byte past the extracted message; no response is produced. -/
theorem header_read_leaves_short_frame (partitions : Partitions) :
    extract_message [0, 0, 0, 4] = some ([0, 0, 0, 4], [])
      ∧ parse_message [0, 0, 0, 4] = none
      ∧ (on_recv partitions [] [0, 0, 0, 4]).stop = Stop.fault
      ∧ (on_recv partitions [] [0, 0, 0, 4]).sent = [] := by
  refine ⟨by decide, by decide, rfl, rfl⟩

/-- C9. A completely received frame whose declared key length fits inside the frame
and whose operation type is not 1, 2 or 3 is answered with exactly
"1ERROR: Unknown command"; the partitions are unchanged, exactly the frame's bytes
are removed, and the loop goes on with the bytes behind it. -/
theorem unknown_operation_is_answered_and_skipped (partitions : Partitions)
    (pending received message rest : Bytes) (op : Byte)
    (he : extract_message (pending ++ received) = some (message, rest))
    (hfit : 17 + declared_key_length message ≤ message.length)
    (hop : message.get? 4 = some op) (h1 : op ≠ 1) (h2 : op ≠ 2) (h3 : op ≠ 3) :
    on_recv partitions pending received
        = ⟨str "1ERROR: Unknown command" :: (on_recv partitions [] rest).sent,
            (on_recv partitions [] rest).partitions, (on_recv partitions [] rest).buffer,
            (on_recv partitions [] rest).stop⟩
      ∧ pending ++ received = message ++ rest
      ∧ message.length = read_total_size (pending ++ received) := by
  have hk : ¬ 17 + declared_key_length message > message.length := by omega
  have hparse := parse_message_of_header message op (by omega) hop
  rw [if_neg hk, if_neg h1, if_neg h2, if_neg h3] at hparse
  have hx := extract_message_some he
  exact ⟨on_recv_step partitions pending received message rest _ he hparse, hx.1, hx.2.1⟩

/-- Witness for C9: a frame with operation type 9 and key "k", followed by a
well-formed GET frame, arriving after its first two bytes. -/
theorem unknown_operation_is_answered_and_skipped_witness :
    extract_message ([0, 0] ++ ([0, 18, 9, 0, 0, 0, 0, 0, 0, 0, 7, 0, 0, 0, 1, 107]
          ++ build_message OP_GET 7 [107] []))
        = some ([0, 0, 0, 18, 9, 0, 0, 0, 0, 0, 0, 0, 7, 0, 0, 0, 1, 107],
            build_message OP_GET 7 [107] [])
      ∧ (on_recv (fun _ _ => none) [0, 0]
            ([0, 18, 9, 0, 0, 0, 0, 0, 0, 0, 7, 0, 0, 0, 1, 107]
              ++ build_message OP_GET 7 [107] [])
          = ⟨str "1ERROR: Unknown command"
                :: (on_recv (fun _ _ => none) [] (build_message OP_GET 7 [107] [])).sent,
              (on_recv (fun _ _ => none) [] (build_message OP_GET 7 [107] [])).partitions,
              (on_recv (fun _ _ => none) [] (build_message OP_GET 7 [107] [])).buffer,
              (on_recv (fun _ _ => none) [] (build_message OP_GET 7 [107] [])).stop⟩
        ∧ [0, 0] ++ ([0, 18, 9, 0, 0, 0, 0, 0, 0, 0, 7, 0, 0, 0, 1, 107]
              ++ build_message OP_GET 7 [107] [])
            = [0, 0, 0, 18, 9, 0, 0, 0, 0, 0, 0, 0, 7, 0, 0, 0, 1, 107]
              ++ build_message OP_GET 7 [107] []
        ∧ ([0, 0, 0, 18, 9, 0, 0, 0, 0, 0, 0, 0, 7, 0, 0, 0, 1, 107] : Bytes).length
            = read_total_size ([0, 0] ++ ([0, 18, 9, 0, 0, 0, 0, 0, 0, 0, 7, 0, 0, 0, 1, 107]
                ++ build_message OP_GET 7 [107] []))) :=
  ⟨by decide,
    unknown_operation_is_answered_and_skipped (fun _ _ => none) [0, 0]
      ([0, 18, 9, 0, 0, 0, 0, 0, 0, 0, 7, 0, 0, 0, 1, 107] ++ build_message OP_GET 7 [107] [])
      [0, 0, 0, 18, 9, 0, 0, 0, 0, 0, 0, 0, 7, 0, 0, 0, 1, 107]
      (build_message OP_GET 7 [107] []) 9 (by decide) (by decide) (by decide) (by decide)
      (by decide) (by decide)⟩

/-! ## Sequences of reads -/

theorem handle_reads_cons (partitions : Partitions) (buffer received : Bytes)
    (reads : List Bytes)
    (hs : (on_recv partitions buffer received).stop = Stop.need_more_data) :
    handle_reads partitions buffer (received :: reads)
      = ((on_recv partitions buffer received).sent
            :: (handle_reads (on_recv partitions buffer received).partitions
                  (on_recv partitions buffer received).buffer reads).1,
          (handle_reads (on_recv partitions buffer received).partitions
            (on_recv partitions buffer received).buffer reads).2) := by
  simp only [handle_reads, hs]

theorem on_recv_build_message (partitions : Partitions) (op : Byte) (h : Nat)
    (key value : Bytes) (hsize : (build_message op h key value).length < 2 ^ 32)
    (request : Request) (hp : parse_message (build_message op h key value) = some request) :
    on_recv partitions [] (build_message op h key value)
      = ⟨[(execute partitions request).1], (execute partitions request).2, [],
          Stop.need_more_data⟩ := by
  have he := extract_build_message op h key value [] hsize
  rw [List.append_nil] at he
  exact on_recv_single partitions [] (build_message op h key value) request he hp

theorem parse_put (h : Nat) (key value : Bytes)
    (hsize : (build_message OP_PUT h key value).length < 2 ^ 32) :
    parse_message (build_message OP_PUT h key value)
      = some (Request.put (h % 2 ^ 64) key value) := by
  have hlen := build_message_length OP_PUT h key value
  simp only [if_true] at hlen
  rw [parse_build_message _ _ _ _ (by omega) (by omega)]
  simp [OP_PUT]

theorem parse_get (h : Nat) (key : Bytes)
    (hsize : (build_message OP_GET h key []).length < 2 ^ 32) :
    parse_message (build_message OP_GET h key [])
      = some (Request.get (h % 2 ^ 64) key) := by
  have hlen := build_message_length OP_GET h key []
  rw [parse_build_message _ _ _ _ (by omega) (by simp)]
  simp [OP_GET]

theorem execute_get_after_put (partitions : Partitions) (h : Nat) (key value : Bytes) :
    execute (execute partitions (Request.put h key value)).2 (Request.get h key)
      = (str "0" ++ value, (execute partitions (Request.put h key value)).2) := by
  simp only [execute, Function.update_same]

/-- C10. From any store, a PUT frame (h, k, v1) followed by a PUT frame (h, k, v2)
is answered "0OK" twice, and a GET frame (h, k) after them is answered with the
status byte '0' followed by exactly the bytes of v2, whether the three frames arrive
in three reads or in one. -/
theorem put_put_get_returns_second_value (partitions : Partitions) (h : Nat)
    (k v1 v2 : Bytes)
    (h1 : (build_message OP_PUT h k v1).length < 2 ^ 32)
    (h2 : (build_message OP_PUT h k v2).length < 2 ^ 32) :
    (handle_client partitions
        [build_message OP_PUT h k v1, build_message OP_PUT h k v2,
          build_message OP_GET h k []]).1
        = [[str "0OK"], [str "0OK"], [str "0" ++ v2]]
      ∧ (on_recv partitions []
          (build_message OP_PUT h k v1
            ++ (build_message OP_PUT h k v2 ++ build_message OP_GET h k []))).sent
        = [str "0OK", str "0OK", str "0" ++ v2]
      ∧ str "0" = [(48 : Byte)] := by
  have hg : (build_message OP_GET h k []).length < 2 ^ 32 := by
    have := build_message_length OP_PUT h k v1
    have := build_message_length OP_GET h k []
    simp only [if_true] at *
    have hne : ¬ OP_GET = OP_PUT := by decide
    simp only [hne, if_false] at *
    omega
  have r1 := on_recv_build_message partitions OP_PUT h k v1 h1 _ (parse_put h k v1 h1)
  have r2 := on_recv_build_message (execute partitions (Request.put (h % 2 ^ 64) k v1)).2
    OP_PUT h k v2 h2 _ (parse_put h k v2 h2)
  have r3 := on_recv_build_message
    (execute (execute partitions (Request.put (h % 2 ^ 64) k v1)).2
      (Request.put (h % 2 ^ 64) k v2)).2 OP_GET h k [] hg _ (parse_get h k hg)
  rw [execute_get_after_put] at r3
  refine ⟨?_, ?_, rfl⟩
  · unfold handle_client
    rw [handle_reads_cons _ _ _ _ (by rw [r1]), r1]
    simp only []
    rw [handle_reads_cons _ _ _ _ (by rw [r2]), r2]
    simp only []
    rw [handle_reads_cons _ _ _ _ (by rw [r3]), r3]
    rfl
  · have e1 := extract_build_message OP_PUT h k v1
      (build_message OP_PUT h k v2 ++ build_message OP_GET h k []) h1
    have e2 := extract_build_message OP_PUT h k v2 (build_message OP_GET h k []) h2
    rw [on_recv_step_nil partitions _ _ _ _ e1 (parse_put h k v1 h1)]
    simp only []
    rw [on_recv_step_nil _ _ _ _ _ e2 (parse_put h k v2 h2)]
    simp only []
    rw [r3]
    rfl

/-- Witness for C10: key "k" in partition 7, values "a" then "bc", on an empty store. -/
theorem put_put_get_returns_second_value_witness :
    (handle_client (fun _ _ => none)
        [build_message OP_PUT 7 [107] [97], build_message OP_PUT 7 [107] [98, 99],
          build_message OP_GET 7 [107] []]).1
        = [[str "0OK"], [str "0OK"], [str "0" ++ [98, 99]]]
      ∧ (on_recv (fun _ _ => none) []
          (build_message OP_PUT 7 [107] [97]
            ++ (build_message OP_PUT 7 [107] [98, 99] ++ build_message OP_GET 7 [107] []))).sent
        = [str "0OK", str "0OK", str "0" ++ [98, 99]]
      ∧ str "0" = [(48 : Byte)] :=
  put_put_get_returns_second_value (fun _ _ => none) 7 [107] [97] [98, 99] (by decide)
    (by decide)

/-! ## A frame delivered in pieces -/

theorem read_total_size_front (pre suf : Bytes) (h4 : 4 ≤ pre.length) :
    read_total_size pre = read_total_size (pre ++ suf) := by
  unfold read_total_size
  rw [List.take_append_of_le_length h4]

theorem extract_message_proper_prefix (pre suf : Bytes) (hsuf : suf ≠ [])
    (ht : read_total_size (pre ++ suf) = (pre ++ suf).length) :
    extract_message pre = none := by
  have hpos : 0 < suf.length := List.length_pos.mpr hsuf
  unfold extract_message
  by_cases h4 : pre.length < 4
  · rw [if_pos h4]
  · rw [if_neg h4]
    have hlt : pre.length < read_total_size pre := by
      rw [read_total_size_front pre suf (by omega), ht, List.length_append]
      omega
    simp only [hlt, if_true]

theorem flatten_ne_nil (chunks : List Bytes) (hne : chunks ≠ [])
    (hall : ∀ c ∈ chunks, c ≠ []) : chunks.flatten ≠ [] := by
  cases chunks with
  | nil => exact absurd rfl hne
  | cons c cs =>
    intro h
    rw [List.flatten_cons, List.append_eq_nil] at h
    exact hall c (List.mem_cons_self _ _) h.1

/-- Reassembly: however a complete, decodable message is cut into non-empty reads,
nothing is sent before the last read, and the last read produces the one response. -/
theorem handle_reads_split (partitions : Partitions) (frame : Bytes) (request : Request)
    (ht : read_total_size frame = frame.length) (h4 : 4 ≤ frame.length)
    (hp : parse_message frame = some request) :
    ∀ (chunks : List Bytes) (buffer : Bytes), chunks ≠ [] → (∀ c ∈ chunks, c ≠ []) →
      buffer ++ chunks.flatten = frame →
      handle_reads partitions buffer chunks
        = (List.replicate (chunks.length - 1) [] ++ [[(execute partitions request).1]],
            (execute partitions request).2, [], Stop.need_more_data) := by
  intro chunks
  induction chunks with
  | nil => intro buffer hne; exact absurd rfl hne
  | cons c cs ih =>
    intro buffer _ hall hjoin
    rw [List.flatten_cons, ← List.append_assoc] at hjoin
    by_cases hcs : cs = []
    · subst hcs
      rw [List.flatten_nil, List.append_nil] at hjoin
      have he : extract_message (buffer ++ c) = some (buffer ++ c, []) := by
        have := extract_message_append (buffer ++ c) [] (by rw [hjoin]; exact h4)
          (by rw [List.append_nil, hjoin]; exact ht)
        rwa [List.append_nil] at this
      have hr := on_recv_single partitions buffer c request he (by rw [hjoin]; exact hp)
      rw [handle_reads_cons _ _ _ _ (by rw [hr]), hr]
      rfl
    · have hall' : ∀ x ∈ cs, x ≠ [] := fun x hx => hall x (List.mem_cons_of_mem _ hx)
      have hsuf := flatten_ne_nil cs hcs hall'
      have hbreak : extract_message (buffer ++ c) = none :=
        extract_message_proper_prefix (buffer ++ c) cs.flatten hsuf
          (by rw [hjoin]; exact ht)
      have hr := on_recv_break partitions buffer c hbreak
      rw [handle_reads_cons _ _ _ _ (by rw [hr]), hr]
      simp only []
      rw [ih (buffer ++ c) hcs hall' hjoin]
      have hlen : (c :: cs).length - 1 = (cs.length - 1) + 1 := by
        have : 0 < cs.length := List.length_pos.mpr hcs
        simp only [List.length_cons]
        omega
      rw [hlen, List.replicate_succ]
      rfl

/-- C5. For a frame built by the client (GET, PUT or DELETE, 64-bit key hash, frame
size below 2^32) and every way of cutting its bytes into consecutive non-empty
reads, `handle_client`, starting from an empty buffer, sends nothing while handling
any read but the last, and on the last read sends exactly one response: the one of
the request (operation, key hash, key, value) the client encoded.  Response, store
and buffer (empty) afterwards are those of the run in which the whole frame arrives
in one read. -/
theorem split_frame_is_reassembled (partitions : Partitions) (op : Byte) (h : Nat)
    (key value : Bytes) (chunks : List Bytes)
    (hop : op = OP_GET ∨ op = OP_PUT ∨ op = OP_DEL) (hh : h < 2 ^ 64)
    (hsize : (build_message op h key value).length < 2 ^ 32)
    (hall : ∀ c ∈ chunks, c ≠ [])
    (hjoin : chunks.flatten = build_message op h key value) :
    handle_client partitions chunks
        = (List.replicate (chunks.length - 1) []
              ++ [[(execute partitions
                    (if op = OP_GET then Request.get h key
                      else if op = OP_PUT then Request.put h key value
                      else Request.del h key)).1]],
            (execute partitions
              (if op = OP_GET then Request.get h key
                else if op = OP_PUT then Request.put h key value
                else Request.del h key)).2,
            [], Stop.need_more_data)
      ∧ handle_client partitions [build_message op h key value]
        = ([[(execute partitions
                (if op = OP_GET then Request.get h key
                  else if op = OP_PUT then Request.put h key value
                  else Request.del h key)).1]],
            (execute partitions
              (if op = OP_GET then Request.get h key
                else if op = OP_PUT then Request.put h key value
                else Request.del h key)).2,
            [], Stop.need_more_data) := by
  have hlen := build_message_length op h key value
  have h4 : 4 ≤ (build_message op h key value).length := by rw [hlen]; omega
  have ht : read_total_size (build_message op h key value)
      = (build_message op h key value).length := by
    simpa using read_total_size_build op h key value [] hsize
  have hp := (parse_client_frame op h key value hop hh hsize)
  have hne : chunks ≠ [] := by
    intro hc
    rw [hc, List.flatten_nil] at hjoin
    rw [← hjoin] at h4
    simp at h4
  constructor
  · exact handle_reads_split partitions _ _ ht h4 hp chunks [] hne hall
      (by rw [List.nil_append]; exact hjoin)
  · exact handle_reads_split partitions _ _ ht h4 hp [build_message op h key value] []
      (by simp) (by intro c hc; rw [List.mem_singleton] at hc; rw [hc]; intro h0; rw [h0] at h4; simp at h4)
      (by simp)

/-- Witness for C5: a PUT of key "k" and value "v", cut after the 3rd and the 10th
byte. -/
theorem split_frame_is_reassembled_witness :
    handle_client (fun _ _ => none)
        [[0, 0, 0], [23, 2, 0, 0, 0, 0, 0, 0], [0, 7, 0, 0, 0, 1, 107, 0, 0, 0, 1, 118]]
        = (List.replicate
              (([[0, 0, 0], [23, 2, 0, 0, 0, 0, 0, 0],
                  [0, 7, 0, 0, 0, 1, 107, 0, 0, 0, 1, 118]] : List Bytes).length - 1) []
              ++ [[(execute (fun _ _ => none)
                    (if OP_PUT = OP_GET then Request.get 7 [107]
                      else if OP_PUT = OP_PUT then Request.put 7 [107] [118]
                      else Request.del 7 [107])).1]],
            (execute (fun _ _ => none)
              (if OP_PUT = OP_GET then Request.get 7 [107]
                else if OP_PUT = OP_PUT then Request.put 7 [107] [118]
                else Request.del 7 [107])).2,
            [], Stop.need_more_data)
      ∧ handle_client (fun _ _ => none) [build_message OP_PUT 7 [107] [118]]
        = ([[(execute (fun _ _ => none)
                (if OP_PUT = OP_GET then Request.get 7 [107]
                  else if OP_PUT = OP_PUT then Request.put 7 [107] [118]
                  else Request.del 7 [107])).1]],
            (execute (fun _ _ => none)
              (if OP_PUT = OP_GET then Request.get 7 [107]
                else if OP_PUT = OP_PUT then Request.put 7 [107] [118]
                else Request.del 7 [107])).2,
            [], Stop.need_more_data) :=
  split_frame_is_reassembled (fun _ _ => none) OP_PUT 7 [107] [118]
    [[0, 0, 0], [23, 2, 0, 0, 0, 0, 0, 0], [0, 7, 0, 0, 0, 1, 107, 0, 0, 0, 1, 118]]
    (by decide) (by decide) (by decide) (by decide) (by decide)

/-! ## The loss-free transport -/

theorem split_reads_flatten (fuel : Nat) :
    ∀ data : Bytes, data.length ≤ fuel → (split_reads fuel data).flatten = data := by
  induction fuel with
  | zero =>
    intro data h
    have : data = [] := List.length_eq_zero.mp (by omega)
    subst this
    rfl
  | succ fuel ih =>
    intro data h
    by_cases hd : data = []
    · subst hd; rfl
    · have hpos : 0 < data.length := List.length_pos.mpr hd
      have hM : SERVER_MAX_BUFFER_SIZE = 4096 := rfl
      have hdrop : (data.drop SERVER_MAX_BUFFER_SIZE).length ≤ fuel := by
        rw [List.length_drop]; omega
      simp only [split_reads, hd, if_false, List.flatten_cons, ih _ hdrop,
        List.take_append_drop]

theorem split_reads_ne_nil (fuel : Nat) :
    ∀ data : Bytes, ∀ c ∈ split_reads fuel data, c ≠ [] := by
  induction fuel with
  | zero => intro data c hc; simp [split_reads] at hc
  | succ fuel ih =>
    intro data c hc
    by_cases hd : data = []
    · subst hd; simp [split_reads] at hc
    · simp only [split_reads, hd, if_false, List.mem_cons] at hc
      rcases hc with hc | hc
      · subst hc
        intro h0
        have hpos : 0 < data.length := List.length_pos.mpr hd
        have hM : SERVER_MAX_BUFFER_SIZE = 4096 := rfl
        have := congrArg List.length h0
        rw [List.length_take] at this
        simp only [List.length_nil] at this
        omega
      · exact ih _ c hc

theorem flatten_replicate_nil_append (n : Nat) (x : List Bytes) :
    (List.replicate n ([] : List Bytes) ++ [x]).flatten = x := by
  induction n with
  | zero => simp
  | succ n ih => rw [List.replicate_succ, List.cons_append, List.flatten_cons, ih]; rfl

/-- A complete, decodable frame sent over a connection whose handler buffer is
empty: the handler applies the decoded request to the store of its server and
queues exactly the one response. -/
theorem cluster_send_frame (sock : Int) (frame : Bytes) (request : Request) (w : Cluster)
    (hpend : w.pending sock = [])
    (ht : read_total_size frame = frame.length) (h4 : 4 ≤ frame.length)
    (hp : parse_message frame = some request) :
    Cluster.send sock frame w
      = ((frame.length : Int),
          { w with
            stores := Function.update w.stores (w.peer sock)
              (execute (w.stores (w.peer sock)) request).2
            pending := Function.update w.pending sock []
            inbox := Function.update w.inbox sock
              (w.inbox sock ++ (execute (w.stores (w.peer sock)) request).1) }) := by
  have hne : split_reads frame.length frame ≠ [] := by
    intro h0
    have := split_reads_flatten frame.length frame (Nat.le_refl _)
    rw [h0, List.flatten_nil] at this
    rw [← this] at h4
    simp at h4
  have hs := handle_reads_split (w.stores (w.peer sock)) frame request ht h4 hp
    (split_reads frame.length frame) [] hne (split_reads_ne_nil _ _)
    (by rw [List.nil_append]; exact split_reads_flatten _ _ (Nat.le_refl _))
  unfold Cluster.send
  rw [hpend, hs]
  simp only [flatten_replicate_nil_append, List.flatten_cons, List.flatten_nil,
    List.append_nil]

/-! ## Failed requests in `get` -/

theorem send_command_empty_key {W : Type} (client : Client W) (fuel : Nat) (op_type : Byte)
    (value : Bytes) (connections : Connections) (w : W) :
    send_command client fuel op_type [] value connections w = some ⟨none, connections, w⟩ := by
  simp only [send_command, if_true]

/-- C8, as stated, fails: `get` of the empty key raises instead of returning the empty
result, and so does `get` of the key "k" when no server can be reached. -/
theorem get_raises_instead_of_returning_empty :
    (get (Cluster.client (fun _ => 0) 1) 2 [] no_connections Cluster.empty).map (fun r => r.1)
        = some (GetResult.raised (str "Failed to get the key: "))
      ∧ (get ⟨Sockets.unreachable, fun _ => 0, 1⟩ 2 [107] no_connections ()).map (fun r => r.1)
        = some (GetResult.raised (str "Failed to get the key: k"))
      ∧ (get ⟨Sockets.unreachable, fun _ => 0, 1⟩ 2 [107] no_connections ()).map (fun r => r.1)
        ≠ some (GetResult.value []) := by
  decide

/-- C8, amended. `get(key)` raises `std::runtime_error` for every request that
`send_command` reports as failed: for the empty key this happens without any call
into the socket layer (connection table and outside world are untouched, whatever
the socket layer is), and whenever `send_command` returns `false` the exception
carries "Failed to get the key: " followed by the key.  Only a reply with a status
byte other than '0' is returned as the empty string; a reply with status '0'
returns its payload. -/
theorem get_raises_when_send_command_fails {W : Type} (client : Client W) (fuel : Nat)
    (key : Bytes) (connections : Connections) (w : W) :
    (key = [] → get client fuel key connections w
        = some (GetResult.raised (str "Failed to get the key: " ++ key), connections, w))
      ∧ (∀ r : CommandResult W,
          send_command client fuel OP_GET key [] connections w = some r → r.reply = none →
          get client fuel key connections w
            = some (GetResult.raised (str "Failed to get the key: " ++ key),
                r.connections, r.world))
      ∧ (∀ (r : CommandResult W) (status_code : Byte) (response : Bytes),
          send_command client fuel OP_GET key [] connections w = some r →
          r.reply = some (status_code, response) →
          get client fuel key connections w
            = some (GetResult.value (if status_code = 48 then response else []),
                r.connections, r.world)) := by
  refine ⟨?_, ?_, ?_⟩
  · intro hk
    subst hk
    simp only [get, send_command_empty_key]
  · intro r hr hreply
    simp only [get, hr, hreply]
  · intro r status_code response hr hreply
    simp only [get, hr, hreply]
    by_cases hs : status_code = 48
    · rw [if_pos hs, if_pos (by rw [hs]; rfl)]
    · rw [if_neg hs, if_neg (by intro h; exact hs (by rw [h]; rfl))]

/-- Witness for the amended C8: the empty key on the loss-free transport, the key "k"
with no reachable server, and the key "k" absent from a reachable server. -/
theorem get_raises_when_send_command_fails_witness :
    get (Cluster.client (fun _ => 0) 1) 2 [] no_connections Cluster.empty
        = some (GetResult.raised (str "Failed to get the key: " ++ []), no_connections,
            Cluster.empty)
      ∧ get ⟨Sockets.unreachable, fun _ => 0, 1⟩ 2 [107] no_connections ()
        = some (GetResult.raised (str "Failed to get the key: " ++ [107]), no_connections, ())
      ∧ (get (Cluster.client (fun _ => 0) 1) 2 [107] no_connections Cluster.empty).map
          (fun r => r.1)
        = some (GetResult.value (if (49 : Byte) = 48 then str "NOT_FOUND" else [])) :=
  ⟨(get_raises_when_send_command_fails (Cluster.client (fun _ => 0) 1) 2 [] no_connections
      Cluster.empty).1 rfl,
    (get_raises_when_send_command_fails ⟨Sockets.unreachable, fun _ => 0, 1⟩ 2 [107]
      no_connections ()).2.1 ⟨none, no_connections, ()⟩ rfl rfl,
    by
      have h := (get_raises_when_send_command_fails (Cluster.client (fun _ => 0) 1) 2 [107]
        no_connections Cluster.empty).2.2
        ((send_command (Cluster.client (fun _ => 0) 1) 2 OP_GET [107] [] no_connections
          Cluster.empty).get (by decide)) 49 (str "NOT_FOUND") (by simp) (by decide)
      rw [h]
      rfl⟩

/-! ## One request and its response on the loss-free transport -/

theorem connect_to_server_fresh (server_id : Nat) (connections : Connections) (w : Cluster)
    (hc : connections server_id = -1) :
    connect_to_server Cluster.sockets server_id connections w
      = ((w.next_fd : Int), Function.update connections server_id (w.next_fd : Int),
          (Cluster.open_socket server_id w).2) := by
  have hfd : ¬ ((w.next_fd : Int) = -1) := by omega
  simp only [connect_to_server, hc, ne_eq, not_true_eq_false, if_false, establish,
    Cluster.sockets, Cluster.open_socket, hfd]

theorem connect_to_server_alive (server_id : Nat) (connections : Connections) (w : Cluster)
    (hc : connections server_id ≠ -1) (hin : w.inbox (connections server_id) = []) :
    connect_to_server Cluster.sockets server_id connections w
      = (connections server_id, connections, w) := by
  simp only [connect_to_server, hc, ne_eq, not_false_eq_true, if_true, is_socket_alive,
    Cluster.sockets, Cluster.peek, hin]

theorem send_loop_cluster (server_id : Nat) (message : Bytes) (fuel : Nat) (sock : Int)
    (connections : Connections) (w : Cluster) (hm : message ≠ []) :
    send_loop Cluster.sockets server_id message (fuel + 2) 0 sock connections w
      = SendResult.sent sock connections (Cluster.send sock message w).2 := by
  have hpos : 0 < message.length := List.length_pos.mpr hm
  have h1 : (Cluster.send sock message w).1 = (message.length : Int) := rfl
  have hle : ¬ ((message.length : Int) ≤ 0) := by omega
  have hlt : ¬ (0 + (message.length : Int).toNat < message.length) := by
    rw [Int.toNat_ofNat]; omega
  rw [send_loop, if_pos hpos]
  simp only [Cluster.sockets, List.drop_zero, h1, hle, if_false]
  rw [send_loop, if_neg hlt]

theorem receive_response_cluster (server_id : Nat) (sock : Int) (connections : Connections)
    (w : Cluster) (s : Byte) (body : Bytes) (hin : w.inbox sock = s :: body)
    (hlen : (s :: body).length ≤ MAX_BUFFER_SIZE - 1)
    (hstrip : strip_line_endings (s :: body) = s :: body) :
    receive_response Cluster.sockets server_id sock connections w
      = ⟨some (s, body), connections,
          { w with inbox := Function.update w.inbox sock [] }⟩ := by
  have htake : (s :: body).take (MAX_BUFFER_SIZE - 1) = s :: body := List.take_of_length_le hlen
  have hdrop : (s :: body).drop (MAX_BUFFER_SIZE - 1) = [] := List.drop_of_length_le hlen
  have hne : ¬ (s :: body = []) := by simp
  simp only [receive_response, Cluster.sockets, Cluster.recv, hin, hne, if_false, htake, hdrop,
    hstrip]

/-- A well-formed frame sent on an idle connection of the loss-free transport, and
its response received: the reply is the handler's response split into status code
and payload. -/
theorem exchange_cluster (server_id : Nat) (frame : Bytes) (request : Request) (fuel : Nat)
    (sock : Int) (connections : Connections) (w : Cluster) (s : Byte) (body : Bytes)
    (hpend : w.pending sock = []) (hin : w.inbox sock = [])
    (ht : read_total_size frame = frame.length) (h4 : 4 ≤ frame.length)
    (hp : parse_message frame = some request)
    (hresp : (execute (w.stores (w.peer sock)) request).1 = s :: body)
    (hlen : (s :: body).length ≤ MAX_BUFFER_SIZE - 1)
    (hstrip : strip_line_endings (s :: body) = s :: body) :
    send_and_receive Cluster.sockets server_id frame (fuel + 2) sock connections w
      = some ⟨some (s, body), connections, Cluster.after_exchange sock request w⟩ := by
  have hm : frame ≠ [] := by
    intro h0; rw [h0] at h4; simp at h4
  unfold send_and_receive
  rw [send_loop_cluster server_id frame fuel sock connections w hm]
  simp only []
  rw [cluster_send_frame sock frame request w hpend ht h4 hp, hin, List.nil_append, hresp]
  rw [receive_response_cluster server_id sock connections _ s body
    (by simp only [Function.update_same]) hlen hstrip]
  simp only [Cluster.after_exchange, Function.update_idem]

theorem strip_line_endings_status (v : Bytes)
    (hend : ∀ b, v.getLast? = some b → b ≠ 10 ∧ b ≠ 13) :
    strip_line_endings ((48 : Byte) :: v) = (48 : Byte) :: v := by
  unfold strip_line_endings
  rw [List.rdropWhile_eq_self_iff]
  intro hl
  cases v with
  | nil => simp
  | cons x xs =>
    rw [List.getLast_cons (by simp)]
    have h := hend ((x :: xs).getLast (by simp)) (List.getLast?_eq_getLast _ _)
    simp only [Bool.or_eq_true, beq_iff_eq, not_or]
    exact h

theorem send_command_cluster_fresh (hasher : Bytes → Nat) (n fuel : Nat) (op : Byte)
    (key value : Bytes) (request : Request) (connections : Connections) (w : Cluster)
    (s : Byte) (body : Bytes) (hk : key ≠ [])
    (hc : connections (hasher key % 2 ^ 64 % n) = -1)
    (hsize : (build_message op (hasher key % 2 ^ 64) key value).length < 2 ^ 32)
    (hp : parse_message (build_message op (hasher key % 2 ^ 64) key value) = some request)
    (hresp : (execute (w.stores (hasher key % 2 ^ 64 % n)) request).1 = s :: body)
    (hlen : (s :: body).length ≤ MAX_BUFFER_SIZE - 1)
    (hstrip : strip_line_endings (s :: body) = s :: body) :
    send_command (Cluster.client hasher n) (fuel + 2) op key value connections w
      = some ⟨some (s, body),
          Function.update connections (hasher key % 2 ^ 64 % n) (w.next_fd : Int),
          Cluster.after_exchange (w.next_fd : Int) request
            (Cluster.open_socket (hasher key % 2 ^ 64 % n) w).2⟩ := by
  have hfd : ¬ ((w.next_fd : Int) = -1) := by omega
  have hlen4 : 4 ≤ (build_message op (hasher key % 2 ^ 64) key value).length := by
    rw [build_message_length]; omega
  have ht : read_total_size (build_message op (hasher key % 2 ^ 64) key value)
      = (build_message op (hasher key % 2 ^ 64) key value).length := by
    simpa using read_total_size_build op (hasher key % 2 ^ 64) key value [] hsize
  have hx := exchange_cluster (hasher key % 2 ^ 64 % n)
    (build_message op (hasher key % 2 ^ 64) key value) request fuel (w.next_fd : Int)
    (Function.update connections (hasher key % 2 ^ 64 % n) (w.next_fd : Int))
    (Cluster.open_socket (hasher key % 2 ^ 64 % n) w).2 s body
    (by simp only [Cluster.open_socket, Function.update_same])
    (by simp only [Cluster.open_socket, Function.update_same]) ht hlen4 hp
    (by simp only [Cluster.open_socket, Function.update_same]; exact hresp) hlen hstrip
  simp only [send_command, hk, if_false, Cluster.client,
    connect_to_server_fresh _ _ _ hc, hfd]
  exact hx

theorem send_command_cluster_alive (hasher : Bytes → Nat) (n fuel : Nat) (op : Byte)
    (key value : Bytes) (request : Request) (connections : Connections) (w : Cluster)
    (s : Byte) (body : Bytes) (hk : key ≠ [])
    (hc : connections (hasher key % 2 ^ 64 % n) ≠ -1)
    (hin : w.inbox (connections (hasher key % 2 ^ 64 % n)) = [])
    (hpend : w.pending (connections (hasher key % 2 ^ 64 % n)) = [])
    (hsize : (build_message op (hasher key % 2 ^ 64) key value).length < 2 ^ 32)
    (hp : parse_message (build_message op (hasher key % 2 ^ 64) key value) = some request)
    (hresp : (execute (w.stores (w.peer (connections (hasher key % 2 ^ 64 % n)))) request).1
      = s :: body)
    (hlen : (s :: body).length ≤ MAX_BUFFER_SIZE - 1)
    (hstrip : strip_line_endings (s :: body) = s :: body) :
    send_command (Cluster.client hasher n) (fuel + 2) op key value connections w
      = some ⟨some (s, body), connections,
          Cluster.after_exchange (connections (hasher key % 2 ^ 64 % n)) request w⟩ := by
  have hlen4 : 4 ≤ (build_message op (hasher key % 2 ^ 64) key value).length := by
    rw [build_message_length]; omega
  have ht : read_total_size (build_message op (hasher key % 2 ^ 64) key value)
      = (build_message op (hasher key % 2 ^ 64) key value).length := by
    simpa using read_total_size_build op (hasher key % 2 ^ 64) key value [] hsize
  have hx := exchange_cluster (hasher key % 2 ^ 64 % n)
    (build_message op (hasher key % 2 ^ 64) key value) request fuel
    (connections (hasher key % 2 ^ 64 % n)) connections w s body hpend hin ht hlen4 hp hresp
    hlen hstrip
  simp only [send_command, hk, if_false, Cluster.client,
    connect_to_server_alive _ _ _ hc hin, hc]
  exact hx

/-- C4, as stated, fails: after `put("k", "\n")` has returned `true`, `get("k")` on the
same client returns the empty string, not the stored one-byte value; and after a
`put` of 1023 bytes 'a', `get` returns only the first 1022 of them. -/
theorem get_after_put_drops_trailing_line_feed :
    (put (Cluster.client (fun _ => 0) 1) 2 [107] [10] no_connections Cluster.empty).map
        (fun r => r.1) = some true
      ∧ ((put (Cluster.client (fun _ => 0) 1) 2 [107] [10] no_connections Cluster.empty).bind
          (fun r => get (Cluster.client (fun _ => 0) 1) 2 [107] r.2.1 r.2.2)).map
            (fun r => r.1) = some (GetResult.value [])
      ∧ ((put (Cluster.client (fun _ => 0) 1) 2 [107] [10] no_connections Cluster.empty).bind
          (fun r => get (Cluster.client (fun _ => 0) 1) 2 [107] r.2.1 r.2.2)).map
            (fun r => r.1) ≠ some (GetResult.value [10])
      ∧ ((put (Cluster.client (fun _ => 0) 1) 2 [107] (List.replicate 1023 97) no_connections
            Cluster.empty).bind
          (fun r => get (Cluster.client (fun _ => 0) 1) 2 [107] r.2.1 r.2.2)).map
            (fun r => r.1) = some (GetResult.value (List.replicate 1022 97)) := by
  refine ⟨by decide, by decide, by decide, ?_⟩
  set_option maxRecDepth 100000 in decide

/-- C4, amended. With every server reachable and a loss-free transport, for every
non-empty key k and every value v that does not end in a line feed or carriage
return and is at most `MAX_BUFFER_SIZE - 2` = 1022 bytes long (so that status byte
and value arrive in the one `recv`), and with the PUT frame shorter than 2^32 bytes:
`put(k, v)` on a new client returns `true`, and a following `get(k)` on the same
client returns exactly v.  This composes the client's frame encoding, the handler's
reassembly, decoding and dispatch, and the client's response parsing. -/
theorem put_then_get_round_trip (hasher : Bytes → Nat) (n fuel : Nat) (w : Cluster)
    (k v : Bytes) (hn : 0 < n) (hk : k ≠ [])
    (hsize : 4 + 1 + 8 + 4 + k.length + 4 + v.length < 2 ^ 32)
    (hfit : v.length ≤ MAX_BUFFER_SIZE - 2)
    (hend : ∀ b, v.getLast? = some b → b ≠ 10 ∧ b ≠ 13) :
    (put (Cluster.client hasher n) (fuel + 2) k v no_connections w).map (fun r => r.1)
        = some true
      ∧ ((put (Cluster.client hasher n) (fuel + 2) k v no_connections w).bind
          (fun r => get (Cluster.client hasher n) (fuel + 2) k r.2.1 r.2.2)).map (fun r => r.1)
        = some (GetResult.value v) := by
  have _ := hn
  have hM : MAX_BUFFER_SIZE = 1024 := rfl
  have hlp := build_message_length OP_PUT (hasher k % 2 ^ 64) k v
  simp only [if_true] at hlp
  have hlg := build_message_length OP_GET (hasher k % 2 ^ 64) k []
  have hne : ¬ OP_GET = OP_PUT := by decide
  simp only [hne, if_false] at hlg
  have hps : (build_message OP_PUT (hasher k % 2 ^ 64) k v).length < 2 ^ 32 := by
    rw [hlp]; omega
  have hgs : (build_message OP_GET (hasher k % 2 ^ 64) k []).length < 2 ^ 32 := by
    rw [hlg]; omega
  have hpp := parse_put (hasher k % 2 ^ 64) k v hps
  have hpg := parse_get (hasher k % 2 ^ 64) k hgs
  rw [Nat.mod_mod] at hpp hpg
  have hfd : ¬ ((w.next_fd : Int) = -1) := by omega
  have hput := send_command_cluster_fresh hasher n fuel OP_PUT k v _ no_connections w 48
    [79, 75] hk rfl hps hpp rfl (by decide) (by decide)
  have hputv : put (Cluster.client hasher n) (fuel + 2) k v no_connections w
      = some (true,
          Function.update no_connections (hasher k % 2 ^ 64 % n) (w.next_fd : Int),
          Cluster.after_exchange (w.next_fd : Int) (Request.put (hasher k % 2 ^ 64) k v)
            (Cluster.open_socket (hasher k % 2 ^ 64 % n) w).2) := by
    simp only [put, hput]
    rfl
  have hget := send_command_cluster_alive hasher n fuel OP_GET k [] _
    (Function.update no_connections (hasher k % 2 ^ 64 % n) (w.next_fd : Int))
    (Cluster.after_exchange (w.next_fd : Int) (Request.put (hasher k % 2 ^ 64) k v)
      (Cluster.open_socket (hasher k % 2 ^ 64 % n) w).2) 48 v hk
    (by simp only [Function.update_same]; exact hfd)
    (by simp only [Function.update_same, Cluster.after_exchange])
    (by simp only [Function.update_same, Cluster.after_exchange])
    hgs hpg
    (by
      simp only [Function.update_same, Cluster.after_exchange, Cluster.open_socket]
      rw [execute_get_after_put]
      rfl)
    (by simp only [List.length_cons]; omega)
    (strip_line_endings_status v hend)
  refine ⟨by rw [hputv]; rfl, ?_⟩
  rw [hputv]
  simp only [Option.some_bind, get, hget]
  rfl

/-- Witness for the amended C4: key "mykey", value "myvalue", two servers, on the
cluster with empty stores. -/
theorem put_then_get_round_trip_witness :
    (put (Cluster.client (fun key => key.length * 31) 2) (0 + 2)
        [109, 121, 107, 101, 121] [109, 121, 118, 97, 108, 117, 101] no_connections
        Cluster.empty).map (fun r => r.1) = some true
      ∧ ((put (Cluster.client (fun key => key.length * 31) 2) (0 + 2)
          [109, 121, 107, 101, 121] [109, 121, 118, 97, 108, 117, 101] no_connections
          Cluster.empty).bind
          (fun r => get (Cluster.client (fun key => key.length * 31) 2) (0 + 2)
            [109, 121, 107, 101, 121] r.2.1 r.2.2)).map (fun r => r.1)
        = some (GetResult.value [109, 121, 118, 97, 108, 117, 101]) :=
  put_then_get_round_trip (fun key => key.length * 31) 2 0 Cluster.empty
    [109, 121, 107, 101, 121] [109, 121, 118, 97, 108, 117, 101] (by decide) (by decide)
    (by decide) (by decide)
    (by
      intro b hb
      have hb101 : (101 : Byte) = b := by simpa using hb
      subst hb101
      decide)

/-! ## Delete, and the shard a request touches -/

theorem partition_id_mod (h : Nat) : partition_id (h % 2 ^ 64) = partition_id h := by
  have hP : PARTITION_COUNT = 1024 := rfl
  simp only [partition_id, Fin.mk.injEq, hP]
  omega

theorem parse_del (h : Nat) (key : Bytes)
    (hsize : (build_message OP_DEL h key []).length < 2 ^ 32) :
    parse_message (build_message OP_DEL h key [])
      = some (Request.del (h % 2 ^ 64) key) := by
  have hlen := build_message_length OP_DEL h key []
  rw [parse_build_message _ _ _ _ (by omega) (by simp)]
  simp [OP_DEL]

theorem execute_del_response (partitions : Partitions) (h : Nat) (key : Bytes) :
    (execute partitions (Request.del h key)).1
      = if (partitions (partition_id h) key).isSome then str "0DELETED"
        else str "1NOT_FOUND" := rfl

theorem execute_del_absent (partitions : Partitions) (h : Nat) (key : Bytes)
    (habs : partitions (partition_id h) key = none) :
    (execute partitions (Request.del h key)).2 = partitions := by
  simp only [execute]
  rw [← habs, Function.update_eq_self, Function.update_eq_self]

theorem execute_get_after_del (partitions : Partitions) (h : Nat) (key : Bytes) :
    execute (execute partitions (Request.del h key)).2 (Request.get h key)
      = (str "1NOT_FOUND", (execute partitions (Request.del h key)).2) := by
  simp only [execute, Function.update_same]

theorem execute_del_after_put (partitions : Partitions) (h : Nat) (key value : Bytes) :
    (execute (execute partitions (Request.put h key value)).2 (Request.del h key)).1
      = str "0DELETED" := by
  simp only [execute, Function.update_same, Option.isSome_some, if_true]

theorem del_frame_size_of_put (h : Nat) (k v : Bytes)
    (hs : (build_message OP_PUT h k v).length < 2 ^ 32) :
    (build_message OP_DEL h k []).length < 2 ^ 32 := by
  have h1 := build_message_length OP_PUT h k v
  have h2 := build_message_length OP_DEL h k []
  have hne : ¬ OP_DEL = OP_PUT := by decide
  simp only [if_true] at h1
  simp only [hne, if_false] at h2
  omega

theorem get_frame_size_of_del (h : Nat) (k : Bytes)
    (hs : (build_message OP_DEL h k []).length < 2 ^ 32) :
    (build_message OP_GET h k []).length < 2 ^ 32 := by
  have h1 := build_message_length OP_DEL h k []
  have h2 := build_message_length OP_GET h k []
  have hne : ¬ OP_DEL = OP_PUT := by decide
  have hne2 : ¬ OP_GET = OP_PUT := by decide
  simp only [hne, if_false] at h1
  simp only [hne2, if_false] at h2
  omega

/-- C11. From any store, a DELETE frame (h, k) is answered "0DELETED" when k is
present in partition h mod 1024 and "1NOT_FOUND" when it is absent, and in the
absent case the store is left as it was; a GET frame (h, k) after it is answered
"1NOT_FOUND" in both cases.  PUT (h, k, v), DELETE (h, k), GET (h, k) are answered
"0OK", "0DELETED", "1NOT_FOUND". -/
theorem delete_then_get_is_not_found (partitions : Partitions) (h : Nat) (k : Bytes)
    (hsize : (build_message OP_DEL h k []).length < 2 ^ 32) :
    (handle_client partitions [build_message OP_DEL h k [], build_message OP_GET h k []]).1
        = [[if (partitions (partition_id h) k).isSome then str "0DELETED"
              else str "1NOT_FOUND"], [str "1NOT_FOUND"]]
      ∧ (partitions (partition_id h) k = none →
          (on_recv partitions [] (build_message OP_DEL h k [])).partitions = partitions)
      ∧ (∀ v : Bytes, (build_message OP_PUT h k v).length < 2 ^ 32 →
          (handle_client partitions
              [build_message OP_PUT h k v, build_message OP_DEL h k [],
                build_message OP_GET h k []]).1
            = [[str "0OK"], [str "0DELETED"], [str "1NOT_FOUND"]]) := by
  have hg := get_frame_size_of_del h k hsize
  have pd := parse_del h k hsize
  have pg := parse_get h k hg
  refine ⟨?_, ?_, ?_⟩
  · have r1 := on_recv_build_message partitions OP_DEL h k [] hsize _ pd
    have r2 := on_recv_build_message (execute partitions (Request.del (h % 2 ^ 64) k)).2
      OP_GET h k [] hg _ pg
    rw [execute_get_after_del] at r2
    unfold handle_client
    rw [handle_reads_cons _ _ _ _ (by rw [r1]), r1]
    simp only []
    rw [handle_reads_cons _ _ _ _ (by rw [r2]), r2]
    simp only [execute_del_response, partition_id_mod]
    rfl
  · intro habs
    rw [on_recv_build_message partitions OP_DEL h k [] hsize _ pd]
    simp only []
    exact execute_del_absent partitions (h % 2 ^ 64) k (by rw [partition_id_mod]; exact habs)
  · intro v hv
    have pp := parse_put h k v hv
    have r1 := on_recv_build_message partitions OP_PUT h k v hv _ pp
    have r2 := on_recv_build_message (execute partitions (Request.put (h % 2 ^ 64) k v)).2
      OP_DEL h k [] hsize _ pd
    have r3 := on_recv_build_message
      (execute (execute partitions (Request.put (h % 2 ^ 64) k v)).2
        (Request.del (h % 2 ^ 64) k)).2 OP_GET h k [] hg _ pg
    rw [execute_get_after_del] at r3
    rw [execute_del_after_put] at r2
    unfold handle_client
    rw [handle_reads_cons _ _ _ _ (by rw [r1]), r1]
    simp only []
    rw [handle_reads_cons _ _ _ _ (by rw [r2]), r2]
    simp only []
    rw [handle_reads_cons _ _ _ _ (by rw [r3]), r3]
    rfl

/-- Witness for C11: key "k" with hash 7, absent from the empty store, then put
with value "v". -/
theorem delete_then_get_is_not_found_witness :
    (handle_client (fun _ _ => none)
        [build_message OP_DEL 7 [107] [], build_message OP_GET 7 [107] []]).1
        = [[if ((fun _ _ => none : Partitions) (partition_id 7) [107]).isSome
              then str "0DELETED" else str "1NOT_FOUND"], [str "1NOT_FOUND"]]
      ∧ (on_recv (fun _ _ => none) [] (build_message OP_DEL 7 [107] [])).partitions
        = (fun _ _ => none)
      ∧ (handle_client (fun _ _ => none)
            [build_message OP_PUT 7 [107] [118], build_message OP_DEL 7 [107] [],
              build_message OP_GET 7 [107] []]).1
          = [[str "0OK"], [str "0DELETED"], [str "1NOT_FOUND"]] :=
  ⟨(delete_then_get_is_not_found (fun _ _ => none) 7 [107] (by decide)).1,
    (delete_then_get_is_not_found (fun _ _ => none) 7 [107] (by decide)).2.1 rfl,
    (delete_then_get_is_not_found (fun _ _ => none) 7 [107] (by decide)).2.2 [118]
      (by decide)⟩

theorem parse_message_cases (message : Bytes) (request : Request)
    (hp : parse_message message = some request) :
    request = Request.invalid
      ∨ (∃ key, request = Request.get (declared_key_hash message) key)
      ∨ (∃ key value, request = Request.put (declared_key_hash message) key value)
      ∨ (∃ key, request = Request.del (declared_key_hash message) key)
      ∨ (∃ op key, request = Request.unknown op (declared_key_hash message) key) := by
  have h17 := parse_message_some_length hp
  have h4 : 4 < message.length := by omega
  have hop : message.get? 4 = some (message.get ⟨4, h4⟩) := List.get?_eq_get h4
  rw [parse_message_of_header message _ h17 hop, Option.some.injEq] at hp
  rw [← declared_key_hash] at hp
  subst hp
  split_ifs
  · exact Or.inl rfl
  · exact Or.inr (Or.inl ⟨_, rfl⟩)
  · exact Or.inl rfl
  · exact Or.inl rfl
  · exact Or.inr (Or.inr (Or.inl ⟨_, _, rfl⟩))
  · exact Or.inr (Or.inr (Or.inr (Or.inl ⟨_, rfl⟩)))
  · exact Or.inr (Or.inr (Or.inr (Or.inr ⟨_, _, rfl⟩)))

/-- C12. Whatever request the handler decodes from an extracted message, it is
applied to the partition with index (key hash decoded from bytes 5..12 of the
message) mod 1024, which lies in [0, 1024) and is fixed by those eight bytes alone
(the key bytes do not enter).  Every other partition is left as it was (for a GET,
all partitions are), and neither the response nor the new content of the addressed
partition depends on any other partition. -/
theorem request_touches_only_its_partition (partitions : Partitions) (message : Bytes)
    (request : Request) (hp : parse_message message = some request) :
    (partition_id (declared_key_hash message)).val = declared_key_hash message % 1024
      ∧ (partition_id (declared_key_hash message)).val < 1024
      ∧ (∀ other : Bytes, (other.drop 5).take 8 = (message.drop 5).take 8 →
          partition_id (declared_key_hash other) = partition_id (declared_key_hash message))
      ∧ (∀ j : Fin PARTITION_COUNT, j ≠ partition_id (declared_key_hash message) →
          (execute partitions request).2 j = partitions j)
      ∧ (∀ key_hash key, request = Request.get key_hash key →
          (execute partitions request).2 = partitions)
      ∧ (∀ partitions2 : Partitions,
          partitions2 (partition_id (declared_key_hash message))
            = partitions (partition_id (declared_key_hash message)) →
          (execute partitions2 request).1 = (execute partitions request).1
            ∧ (execute partitions2 request).2 (partition_id (declared_key_hash message))
              = (execute partitions request).2 (partition_id (declared_key_hash message))) := by
  refine ⟨rfl, (partition_id (declared_key_hash message)).isLt, ?_, ?_, ?_, ?_⟩
  · intro other ho
    unfold declared_key_hash
    rw [ho]
  · intro j hj
    rcases parse_message_cases message request hp with h | ⟨k, h⟩ | ⟨k, v, h⟩ | ⟨k, h⟩
      | ⟨op, k, h⟩
    · subst h; rfl
    · subst h; simp only [execute]; split <;> rfl
    · subst h; simp only [execute]; exact Function.update_noteq hj _ _
    · subst h; simp only [execute]; exact Function.update_noteq hj _ _
    · subst h; rfl
  · intro kh k h
    subst h
    simp only [execute]
    split <;> rfl
  · intro p2 h2
    rcases parse_message_cases message request hp with h | ⟨k, h⟩ | ⟨k, v, h⟩ | ⟨k, h⟩
      | ⟨op, k, h⟩
    · subst h; exact ⟨rfl, h2⟩
    · subst h
      simp only [execute, h2]
      split <;> exact ⟨rfl, h2⟩
    · subst h
      simp only [execute, h2, Function.update_same, and_self]
    · subst h
      simp only [execute, h2, Function.update_same, and_self]
    · subst h; exact ⟨rfl, h2⟩

/-- Witness for C12: a PUT of key "k", value "v" with key hash 1031 (partition 7) on
the empty store. -/
theorem request_touches_only_its_partition_witness :
    (partition_id (declared_key_hash (build_message OP_PUT 1031 [107] [118]))).val
        = declared_key_hash (build_message OP_PUT 1031 [107] [118]) % 1024
      ∧ (partition_id (declared_key_hash (build_message OP_PUT 1031 [107] [118]))).val < 1024
      ∧ (∀ other : Bytes,
          (other.drop 5).take 8 = ((build_message OP_PUT 1031 [107] [118]).drop 5).take 8 →
          partition_id (declared_key_hash other)
            = partition_id (declared_key_hash (build_message OP_PUT 1031 [107] [118])))
      ∧ (∀ j : Fin PARTITION_COUNT,
          j ≠ partition_id (declared_key_hash (build_message OP_PUT 1031 [107] [118])) →
          (execute (fun _ _ => none) (Request.put 1031 [107] [118])).2 j
            = (fun _ _ => none : Partitions) j)
      ∧ (∀ key_hash key, Request.put 1031 [107] [118] = Request.get key_hash key →
          (execute (fun _ _ => none) (Request.put 1031 [107] [118])).2 = (fun _ _ => none))
      ∧ (∀ partitions2 : Partitions,
          partitions2 (partition_id (declared_key_hash (build_message OP_PUT 1031 [107] [118])))
            = (fun _ _ => none : Partitions)
                (partition_id (declared_key_hash (build_message OP_PUT 1031 [107] [118]))) →
          (execute partitions2 (Request.put 1031 [107] [118])).1
              = (execute (fun _ _ => none) (Request.put 1031 [107] [118])).1
            ∧ (execute partitions2 (Request.put 1031 [107] [118])).2
                (partition_id (declared_key_hash (build_message OP_PUT 1031 [107] [118])))
              = (execute (fun _ _ => none) (Request.put 1031 [107] [118])).2
                (partition_id (declared_key_hash (build_message OP_PUT 1031 [107] [118])))) :=
  request_touches_only_its_partition (fun _ _ => none)
    (build_message OP_PUT 1031 [107] [118]) (Request.put 1031 [107] [118]) (by decide)

/-! ## Reconnects in the send loop -/

/-- An extracted message takes exactly the declared `total_size` bytes off the
buffer. -/
theorem extract_message_removes_total_size {buffer message rest : Bytes}
    (h : extract_message buffer = some (message, rest)) :
    rest.length + read_total_size buffer = buffer.length := by
  have hx := extract_message_some h
  have hlen : buffer.length = message.length + rest.length := by
    rw [hx.1, List.length_append]
  omega

/-- An iteration that runs to its response removes at least the 17 header bytes. -/
theorem completed_iteration_removes_header {buffer message rest : Bytes} {request : Request}
    (he : extract_message buffer = some (message, rest))
    (hp : parse_message message = some request) :
    rest.length + 17 ≤ buffer.length := by
  have hx := extract_message_some he
  have hl := parse_message_some_length hp
  have hlen : buffer.length = message.length + rest.length := by
    rw [hx.1, List.length_append]
  omega

/-- C14 fails on the pending bytes 00 00 00 00 (declared `total_size` 0): the
iteration does not stop with "need more data", extracts an empty message, removes no
byte from the buffer, and then reads `message[4]` outside the empty message; the
buffer afterwards is the buffer before. -/
theorem zero_total_size_removes_no_byte (partitions : Partitions) :
    read_total_size [0, 0, 0, 0] = 0
      ∧ extract_message [0, 0, 0, 0] = some ([], [0, 0, 0, 0])
      ∧ parse_message [] = none
      ∧ (on_recv partitions [] [0, 0, 0, 0]).buffer = [0, 0, 0, 0]
      ∧ (on_recv partitions [] [0, 0, 0, 0]).stop = Stop.fault
      ∧ (on_recv partitions [] [0, 0, 0, 0]).sent = [] := by
  refine ⟨by decide, by decide, by decide, rfl, rfl, rfl⟩

end Finch
